/-
Verification of the signal-synthesis pipeline of the market-intel-platform
backend (Python sources under backend/app/services/).

Shallow embedding conventions:
- Python floats are modelled as exact rationals (ℚ); timestamps are seconds
  as integers (ℤ); `datetime.utcnow()` becomes an explicit `now : ℤ` argument.
- Network / database collaborators (market data, news feeds, the SQL history
  table) are passed in as explicit function arguments or list-valued state;
  a call that may raise is modelled with `Except Unit`.
- Python's `round(x, n)` (round-half-to-even) is modelled by `roundTo`.
- Purely presentational fields of `DigestItemResponse` (title, summary,
  explanation, how_to_trade, formatted news, metadata strings) are template
  strings with no decision content and are omitted from the `DigestItem`
  record; the fields the pipeline decides on (scores, priority, category)
  are kept, together with the publish timestamp of the triggering article
  (exposed in the real response through `news_articles[0].published`).
-/
import Mathlib

/-- Python `round` to an integer: round half to even (banker's rounding). -/
def rhe (q : ℚ) : ℤ :=
  if q - ⌊q⌋ < 1/2 then ⌊q⌋
  else if 1/2 < q - ⌊q⌋ then ⌊q⌋ + 1
  else if ⌊q⌋ % 2 = 0 then ⌊q⌋ else ⌊q⌋ + 1

/-- Python `round(q, k)`. -/
def roundTo (k : ℕ) (q : ℚ) : ℚ :=
  (rhe (q * (10 ^ k : ℕ)) : ℚ) / (10 ^ k : ℕ)

/-- `max(-1.0, min(1.0, s))` as it appears in both technical scorers. -/
def clamp1 (s : ℚ) : ℚ := max (-1) (min 1 s)

/-- MACD crossover direction as produced by
`market_data_service.calculate_macd` ("bullish" / "bearish"). -/
inductive Crossover where
  | bullish
  | bearish
deriving DecidableEq, Repr

/-- The `moving_averages` dict of `get_comprehensive_analysis` (the
`above_ema_200` / cross flags can be `None` in Python, which is falsy in
every use site, so they are collapsed to `Bool`). -/
structure MAData where
  above_ema_20 : Bool
  above_ema_50 : Bool
  above_ema_200 : Bool
  golden_cross : Bool
  death_cross : Bool
deriving DecidableEq, Repr

/-- The `volume` dict of `get_comprehensive_analysis`
(`high_volume`, `volume_ratio_20day`). -/
structure VolumeData where
  high_volume : Bool
  volume_ratio_20day : ℚ
deriving DecidableEq, Repr

/-- Result of `market_data_service.get_comprehensive_analysis`: the price
dict is reduced to its `price` entry; each sub-analysis can be `None`.
For `macd` only the `crossover` entry is consulted by the generators, so the
dict is reduced to it ( `none` covers both a missing dict and a falsy
crossover, which the call sites treat identically via
`if macd and macd.get("crossover")` / `if macd:` + equality tests). -/
structure Analysis where
  price : Option ℚ
  rsi : Option ℚ
  macd : Option Crossover
  moving_averages : Option MAData
  volume : Option VolumeData
deriving DecidableEq, Repr

/-- Python truthiness of an optional float (`if rsi:`, `if not current_price:`):
`None` and `0.0` are falsy. -/
def truthyQ (x : Option ℚ) : Bool :=
  match x with
  | none => false
  | some v => v ≠ 0

/-- `NewsDrivenSignalGenerator._calculate_technical_score`.
Note the Python guard `if rsi:` (truthiness, so `rsi == 0.0` is skipped) and
that only `above_ema_200`, `golden_cross`, `death_cross` are consulted. -/
def calcTechScoreNews (rsi : Option ℚ) (macd : Option Crossover)
    (mas : Option MAData) (volume : Option VolumeData) : ℚ :=
  let s0 : ℚ := 0
  let s1 :=
    if truthyQ rsi then
      let r := rsi.getD 0
      if r < 30 then s0 + 3/10
      else if r > 70 then s0 - 3/10
      else if 40 ≤ r ∧ r ≤ 60 then s0 + 0
      else s0 + (50 - r) / 100
    else s0
  let s2 :=
    match macd with
    | some c => if c = Crossover.bullish then s1 + 2/10 else s1 - 2/10
    | none => s1
  let s3 :=
    match mas with
    | some m =>
      let a := if m.above_ema_200 then s2 + 15/100 else s2
      let b := if m.golden_cross then a + 2/10 else a
      if m.death_cross then b - 2/10 else b
    | none => s2
  let s4 :=
    match volume with
    | some v =>
      if v.high_volume then (if s3 > 0 then s3 + 1/10 else s3 - 1/10) else s3
    | none => s3
  clamp1 s4

/-- `SignalGenerator._calculate_technical_score` (the periodic / watchlist
generator; note the different constants: MACD ±0.25, all three EMA flags at
+0.1, golden/death cross ±0.15, and the volume bonus ±0.15 which also
requires `volume_ratio_20day > 1.5`).  The `factors` counter of the source
only decides between `clamp` and a literal `0.0`, which coincide when no
factor contributed; it is nevertheless reproduced. -/
def calcTechScorePeriodic (rsi : Option ℚ) (macd : Option Crossover)
    (mas : Option MAData) (volume : Option VolumeData) : ℚ :=
  let s0 : ℚ := 0
  let f0 : ℕ := 0
  let (s1, f1) :=
    match rsi with
    | some r =>
      (if r < 30 then s0 + 3/10
       else if r > 70 then s0 - 3/10
       else if 40 ≤ r ∧ r ≤ 60 then s0 + 0
       else s0 + (50 - r) / 100, f0 + 1)
    | none => (s0, f0)
  let (s2, f2) :=
    match macd with
    | some c =>
      (if c = Crossover.bullish then s1 + 25/100
       else if c = Crossover.bearish then s1 - 25/100 else s1, f1 + 1)
    | none => (s1, f1)
  let (s3, f3) :=
    match mas with
    | some m =>
      let ma0 : ℚ := 0
      let ma1 := if m.above_ema_20 then ma0 + 1/10 else ma0
      let ma2 := if m.above_ema_50 then ma1 + 1/10 else ma1
      let ma3 := if m.above_ema_200 then ma2 + 1/10 else ma2
      let ma4 := if m.golden_cross then ma3 + 15/100 else ma3
      let ma5 := if m.death_cross then ma4 - 15/100 else ma4
      (s2 + ma5, f2 + 1)
    | none => (s2, f2)
  let (s4, f4) :=
    match volume with
    | some v =>
      (if v.high_volume ∧ v.volume_ratio_20day > 3/2 then
        (if s3 > 0 then s3 + 15/100 else s3 - 15/100)
       else s3, f3 + 1)
    | none => (s3, f3)
  if f4 > 0 then clamp1 s4 else 0

/-- `_determine_category` (identical bodies in both generators; the periodic
one also receives the unused `volume` argument). -/
def determineCategory (score : ℚ) : String :=
  if |score| > 6/10 then "trade_alert"
  else if |score| > 4/10 then "watch_list"
  else "market_context"

/-- `SignalGenerator._determine_category(score, volume)` — `volume` is unused. -/
def determineCategoryPeriodic (score : ℚ) (_volume : Option VolumeData) : String :=
  determineCategory score

/-- `NewsDrivenSignalGenerator._determine_priority`. -/
def determinePriorityNews (score : ℚ) (ml_confidence : ℚ) : String :=
  if |score| > 7/10 ∧ ml_confidence > 8/10 then "high"
  else if |score| > 5/10 then "medium"
  else "low"

/-- `SignalGenerator._determine_priority`. -/
def determinePriorityPeriodic (score : ℚ) (volume : Option VolumeData) : String :=
  let high_volume := match volume with | some v => v.high_volume | none => false
  if |score| > 7/10 ∧ high_volume = true then "high"
  else if |score| > 5/10 then "medium"
  else "low"

/-- Rank of a category in the order market_context < watch_list < trade_alert. -/
def categoryRank (c : String) : ℕ :=
  if c = "trade_alert" then 2 else if c = "watch_list" then 1 else 0

/- ----------------------------------------------------------------------
Character and string utilities for `symbol_extractor_service` (ASCII
semantics, which covers every pattern the service matches on).
---------------------------------------------------------------------- -/

/-- `[A-Z]`. -/
def isUpperAZ (c : Char) : Bool := 'A' ≤ c ∧ c ≤ 'Z'

/-- `[a-z]`. -/
def isLowerAZ (c : Char) : Bool := 'a' ≤ c ∧ c ≤ 'z'

/-- `[0-9]`. -/
def isDigit09 (c : Char) : Bool := '0' ≤ c ∧ c ≤ '9'

/-- Regex `\w` (ASCII): letters, digits, underscore. -/
def isWordChar (c : Char) : Bool :=
  isUpperAZ c || isLowerAZ c || isDigit09 c || c = '_'

/-- Regex `\s` as used between ticker and context keyword. -/
def isSpaceChar (c : Char) : Bool :=
  c = ' ' || c = '\t' || c = '\n' || c = '\x0d' || c = '\x0c' || c = '\x0b'

/-- ASCII `str.upper`. -/
def toUpperAZ (c : Char) : Char :=
  if isLowerAZ c then Char.ofNat (c.toNat - 32) else c

/-- ASCII `str.lower`. -/
def toLowerAZ (c : Char) : Char :=
  if isUpperAZ c then Char.ofNat (c.toNat + 32) else c

/-- Python substring test `needle in hay`. -/
def containsSub (hay needle : List Char) : Bool :=
  (List.range (hay.length + 1)).any fun i => needle.isPrefixOf (hay.drop i)

/-- Scanner for `countSub`, structurally recursive on a fuel argument
(sufficient fuel: the length of the haystack, since each step drops at
least one character). -/
def countSubAux (needle : List Char) : ℕ → List Char → ℕ
  | 0, _ => 0
  | _, [] => 0
  | fuel + 1, c :: rest =>
    if needle.isPrefixOf (c :: rest) then
      1 + countSubAux needle fuel (List.drop (needle.length - 1) rest)
    else
      countSubAux needle fuel rest

/-- Python `hay.count(needle)` for a non-empty needle: non-overlapping
occurrences, scanning left to right. -/
def countSub (needle : List Char) (hay : List Char) : ℕ :=
  if needle.isEmpty then 0 else countSubAux needle hay.length hay

/-- Word-boundary-delimited occurrence of `needle` in `hay`: the regex
`\b needle \b` used by `extract_companies_from_text` (every company name
starts and ends with a word character, so `\b` at the edges demands a
non-word neighbour or the text edge). -/
def containsWordBounded (hay needle : List Char) : Bool :=
  (List.range (hay.length + 1)).any fun i =>
    needle.isPrefixOf (hay.drop i) &&
    (decide (i = 0) || !isWordChar (hay.getD (i - 1) ' ')) &&
    (decide (hay.length ≤ i + needle.length) ||
      !isWordChar (hay.getD (i + needle.length) ' '))

/- ----------------------------------------------------------------------
`SymbolExtractor` (symbol_extractor_service.py)
---------------------------------------------------------------------- -/

/-- `SymbolExtractor.EXCLUDED_WORDS`. -/
def EXCLUDED_WORDS : List String :=
  ["CEO", "CFO", "CTO", "NYSE", "NASDAQ", "USD", "USA",
   "SEC", "FDA", "FTC", "IPO", "ETF", "API", "AI", "ML",
   "Q1", "Q2", "Q3", "Q4", "YOY", "MOM", "EBITDA", "PE",
   "EPS", "GDP", "CPI", "PPI", "FOMC", "FED", "DOJ", "FBI",
   "REIT", "SPAC", "ARKK", "VIX", "DXY", "BTC", "ETH",
   "THE", "AND", "FOR", "ARE", "BUT", "NOT", "YOU", "ALL",
   "CAN", "HER", "WAS", "ONE", "OUR", "OUT", "DAY", "GET",
   "HAS", "HIM", "HIS", "HOW", "ITS", "MAY", "NEW", "NOW",
   "OLD", "SEE", "TWO", "WAY", "WHO", "BOY", "DID", "ITS",
   "LET", "PUT", "SAY", "SHE", "TOO", "USE", "DAD", "MOM",
   "BIG", "FUN", "SIR", "YES"]

/-- `SymbolExtractor.COMPANY_TO_TICKER`, in source (insertion) order. -/
def COMPANY_TO_TICKER : List (String × String) :=
  [("apple", "AAPL"), ("microsoft", "MSFT"), ("google", "GOOGL"),
   ("alphabet", "GOOGL"), ("amazon", "AMZN"), ("meta", "META"),
   ("facebook", "META"), ("tesla", "TSLA"), ("nvidia", "NVDA"),
   ("netflix", "NFLX"),
   ("amd", "AMD"), ("intel", "INTC"), ("qualcomm", "QCOM"),
   ("broadcom", "AVGO"), ("oracle", "ORCL"), ("salesforce", "CRM"),
   ("adobe", "ADBE"), ("servicenow", "NOW"), ("snowflake", "SNOW"),
   ("palantir", "PLTR"), ("databricks", "DATABRICKS"), ("airbnb", "ABNB"),
   ("uber", "UBER"), ("lyft", "LYFT"), ("doordash", "DASH"),
   ("jpmorgan", "JPM"), ("jp morgan", "JPM"), ("goldman sachs", "GS"),
   ("morgan stanley", "MS"), ("bank of america", "BAC"),
   ("wells fargo", "WFC"), ("citigroup", "C"), ("coinbase", "COIN"),
   ("robinhood", "HOOD"), ("square", "SQ"), ("block", "SQ"),
   ("paypal", "PYPL"), ("visa", "V"), ("mastercard", "MA"),
   ("walmart", "WMT"), ("target", "TGT"), ("costco", "COST"),
   ("home depot", "HD"), ("lowe\x27s", "LOW"), ("nike", "NKE"),
   ("starbucks", "SBUX"), ("mcdonald\x27s", "MCD"), ("chipotle", "CMG"),
   ("shopify", "SHOP"),
   ("pfizer", "PFE"), ("moderna", "MRNA"), ("johnson & johnson", "JNJ"),
   ("merck", "MRK"), ("abbvie", "ABBV"), ("eli lilly", "LLY"),
   ("unitedhealth", "UNH"),
   ("exxon", "XOM"), ("chevron", "CVX"), ("conocophillips", "COP"),
   ("schlumberger", "SLB"),
   ("disney", "DIS"), ("comcast", "CMCSA"), ("warner bros", "WBD"),
   ("paramount", "PARA"), ("spotify", "SPOT"),
   ("ford", "F"), ("general motors", "GM"), ("gm", "GM"),
   ("lucid", "LCID"), ("rivian", "RIVN"), ("nio", "NIO"),
   ("boeing", "BA"), ("lockheed martin", "LMT"), ("raytheon", "RTX"),
   ("s&p 500", "SPY"), ("s&p", "SPY"), ("nasdaq", "QQQ"),
   ("dow jones", "DIA"), ("dow", "DIA")]

/-- Stock-context keywords of the method-2 pattern
`\b([A-Z]{2,5})\s+(stock|shares|equity|ticker|symbol|corporation|corp|inc)\b`,
in alternation order. -/
def contextKeywords : List String :=
  ["stock", "shares", "equity", "ticker", "symbol", "corporation", "corp", "inc"]

/-- Method 1 of `extract_tickers_from_text`: the regex `\$([A-Z]{1,5})\b`
matches at a `$` iff the maximal uppercase run after it has length 1–5 and
is followed by a non-word character or the end of the text (`\b` inside a
letter run fails, so backtracking over the `{1,5}` quantifier never splits
the run). -/
def dollarTickerAt (text : List Char) (i : ℕ) : Option (List Char) :=
  if text.getD i ' ' = '$' ∧ i < text.length then
    let run := (text.drop (i + 1)).takeWhile isUpperAZ
    let after := (text.drop (i + 1)).drop run.length
    if 1 ≤ run.length ∧ run.length ≤ 5 ∧
        (after.isEmpty ∨ ¬ isWordChar (after.getD 0 ' ')) then
      some run
    else none
  else none

/-- All matches of `\$([A-Z]{1,5})\b` (a match never contains a later `$`,
so collecting at every position coincides with `re.findall`). -/
def dollarTickers (text : List Char) : List (List Char) :=
  (List.range text.length).filterMap (dollarTickerAt text)

/-- Whether context keyword `kw` matches case-insensitively at the head of
`rest`, with a word boundary after it. -/
def keywordAt (rest : List Char) (kw : String) : Bool :=
  kw.toList.isPrefixOf ((rest.take kw.length).map toLowerAZ) &&
  (decide (rest.length ≤ kw.length) ||
    !isWordChar (rest.getD kw.length ' '))

/-- One attempted match of the method-2 pattern at position `i`: on success
returns the captured ticker (original case, as `match.group(1)`) and the
total match length from `i`.  `re.IGNORECASE` makes `[A-Z]` match any ASCII
letter; `\b` requires a non-word character (or text start) before the run;
the `{2,5}` quantifier can only take the whole letter run (a boundary
inside a run fails), so runs longer than 5 never match. -/
def contextMatchAt (text : List Char) (i : ℕ) : Option (List Char × ℕ) :=
  if i = 0 ∨ ¬ isWordChar (text.getD (i - 1) ' ') then
    let tail := text.drop i
    let run := tail.takeWhile (fun c => isUpperAZ c || isLowerAZ c)
    if 2 ≤ run.length ∧ run.length ≤ 5 then
      let afterRun := tail.drop run.length
      let ws := afterRun.takeWhile isSpaceChar
      if 1 ≤ ws.length then
        let rest := afterRun.drop ws.length
        match contextKeywords.find? (keywordAt rest) with
        | some kw => some (run, run.length + ws.length + kw.length)
        | none => none
      else none
    else none
  else none

/-- `re.finditer` scan for the method-2 pattern: find the leftmost match at
or after position `i`, emit its captured group, resume after the match.
Structurally recursive on a fuel argument; every step advances the
position by at least one, so `text.length` fuel from position 0 exhausts
the text. -/
def contextTickerScanAux (text : List Char) : ℕ → ℕ → List (List Char)
  | 0, _ => []
  | fuel + 1, i =>
    if i < text.length then
      match contextMatchAt text i with
      | some (run, len) =>
        run :: contextTickerScanAux text fuel (i + max len 1)
      | none => contextTickerScanAux text fuel (i + 1)
    else []

/-- All captured groups of `re.finditer` for the method-2 pattern. -/
def contextTickerScan (text : List Char) (i : ℕ) : List (List Char) :=
  contextTickerScanAux text (text.length - i) i

/-- Method 3 of `extract_tickers_from_text`: `\(([A-Z]{2,5})\)`. -/
def parenTickerAt (text : List Char) (i : ℕ) : Option (List Char) :=
  if text.getD i ' ' = '(' ∧ i < text.length then
    let run := (text.drop (i + 1)).takeWhile isUpperAZ
    if 2 ≤ run.length ∧ run.length ≤ 5 ∧
        (text.drop (i + 1)).getD run.length ' ' = ')' then
      some run
    else none
  else none

/-- `SymbolExtractor.extract_tickers_from_text`.  The Python function
returns a `set`; the model returns a duplicate-free list (iteration order
of a set is unspecified, and only membership is consumed downstream). -/
def extractTickersFromText (text : List Char) : List String :=
  let m1 := dollarTickers text
  let m2 := (contextTickerScan text 0).filter
    (fun t => ¬ EXCLUDED_WORDS.contains (String.mk t))
  let m3 := ((List.range text.length).filterMap (parenTickerAt text)).filter
    (fun t => ¬ EXCLUDED_WORDS.contains (String.mk t))
  ((m1 ++ m2 ++ m3).map String.mk).dedup

/-- `SymbolExtractor.extract_companies_from_text`: word-bounded,
case-insensitive company-name lookup; returns the mapped tickers (a set,
modelled as a duplicate-free list). -/
def extractCompaniesFromText (text : List Char) : List String :=
  let lower := text.map toLowerAZ
  (COMPANY_TO_TICKER.filterMap fun p =>
    if containsWordBounded lower p.1.toList then some p.2 else none).dedup

/-- `SymbolExtractor._get_company_name`: first key mapping to the ticker. -/
def getCompanyName (ticker : String) : Option String :=
  (COMPANY_TO_TICKER.find? (fun p => p.2 = ticker)).map (·.1)

/-- A `{"symbol": …, "confidence": …, "method": …}` entry of
`extract_symbols`. -/
structure SymbolCandidate where
  symbol : String
  confidence : ℚ
  method : String
deriving DecidableEq, Repr

/-- Stable insertion into a list sorted descending by `key` (the element
being inserted is placed before the first entry whose key is not larger,
i.e. after every earlier-inserted entry with a ≥ key only when that key is
strictly larger). -/
def insertDescBy {α : Type} (key : α → ℚ) (x : α) : List α → List α
  | [] => [x]
  | y :: ys => if key x < key y then y :: insertDescBy key x ys else x :: y :: ys

/-- Python's stable `list.sort(key=…, reverse=True)`: descending by `key`,
ties kept in original order. -/
def sortDescBy {α : Type} (key : α → ℚ) : List α → List α
  | [] => []
  | x :: xs => insertDescBy key x (sortDescBy key xs)

/-- The body of the ticker-pattern loop of `extract_symbols`: confidence
0.95 if the ticker appears in the (uppercased) title, 0.85 on more than
two occurrences in the text, else 0.7; appended when it clears
`min_confidence`. -/
def tickerStep (titleUpper textUpper : List Char) (min_confidence : ℚ)
    (acc : List SymbolCandidate) (symbol : String) : List SymbolCandidate :=
  let confidence : ℚ :=
    if containsSub titleUpper symbol.toList then 95/100
    else if countSub symbol.toList textUpper > 2 then 85/100
    else 7/10
  if confidence ≥ min_confidence then
    acc ++ [⟨symbol, confidence, "ticker_pattern"⟩]
  else acc

/-- The body of the company-name loop of `extract_symbols`: skipped when
the symbol is already in the results, else confidence 0.9 / 0.75 / 0.6 by
title presence and repetition. -/
def companyStep (titleLower textLower : List Char) (min_confidence : ℚ)
    (acc : List SymbolCandidate) (symbol : String) : List SymbolCandidate :=
  if acc.any (fun r => r.symbol = symbol) then acc
  else
    let company_name := (getCompanyName symbol).getD ""
    let confidence : ℚ :=
      if containsSub titleLower company_name.toList then 9/10
      else if countSub company_name.toList textLower > 1 then 75/100
      else 6/10
    if confidence ≥ min_confidence then
      acc ++ [⟨symbol, confidence, "company_name"⟩]
    else acc

/-- `SymbolExtractor.extract_symbols`.  (`_get_company_name` cannot return
`None` for a ticker produced by `extract_companies_from_text`; the model
totalises that lookup with `""`, on which Python's `"" in s` / `count`
behaviour is irrelevant because the branch is unreachable.) -/
def extractSymbols (title summary : String) (min_confidence : ℚ) :
    List SymbolCandidate :=
  let text := title ++ " " ++ summary
  let textChars := text.toList
  let titleUpper := title.toList.map toUpperAZ
  let textUpper := textChars.map toUpperAZ
  let titleLower := title.toList.map toLowerAZ
  let textLower := textChars.map toLowerAZ
  let ticker_symbols := extractTickersFromText textChars
  let company_symbols := extractCompaniesFromText textChars
  let step1 := ticker_symbols.foldl
    (tickerStep titleUpper textUpper min_confidence) []
  let step2 := company_symbols.foldl
    (companyStep titleLower textLower min_confidence) step1
  sortDescBy (fun r => r.confidence) step2

/- ----------------------------------------------------------------------
ML sentiment scorer (ml_sentiment_service.py)
---------------------------------------------------------------------- -/

/-- The dict returned by `MLSentimentAnalyzer.analyze_sentiment`. -/
structure SentimentResult where
  score : ℚ
  confidence : ℚ
  label : String
  prob_positive : ℚ
  prob_negative : ℚ
  prob_neutral : ℚ
deriving DecidableEq, Repr

/-- The neutral fallback dict returned from the `except` branch. -/
def neutralSentiment : SentimentResult :=
  ⟨0, 0, "neutral", 33/100, 33/100, 34/100⟩

/-- Lines 106–135 of `analyze_sentiment`: composite score, max-probability
label (ties resolved positive, then negative, then neutral, exactly as the
`if`/`elif` chain), confidence = max probability, all rounded to 3 places. -/
def sentimentFromProbs (negative_prob neutral_prob positive_prob : ℚ) :
    SentimentResult :=
  let score := positive_prob - negative_prob
  let max_prob := max (max negative_prob neutral_prob) positive_prob
  let label :=
    if positive_prob = max_prob then "positive"
    else if negative_prob = max_prob then "negative"
    else "neutral"
  ⟨roundTo 3 score, roundTo 3 max_prob, label,
   roundTo 3 positive_prob, roundTo 3 negative_prob, roundTo 3 neutral_prob⟩

/-- `MLSentimentAnalyzer.analyze_sentiment`.  The FinBERT forward pass is
abstracted as `infer`, an oracle producing the three softmax probabilities
(negative, neutral, positive) or raising.  The lazy `_load_model()` call
happens *before* the `try:` block and `_load_model` re-raises its own
failures, so a load failure on an uninitialised analyzer propagates to the
caller; only errors inside the `try:` produce the neutral fallback. -/
def analyzeSentimentML (initialized : Bool) (loadOk : Bool)
    (infer : Except Unit (ℚ × ℚ × ℚ)) : Except Unit SentimentResult :=
  if initialized = false ∧ loadOk = false then Except.error ()
  else
    match infer with
    | Except.error _ => Except.ok neutralSentiment
    | Except.ok (neg, neu, pos) => Except.ok (sentimentFromProbs neg neu pos)

/- ----------------------------------------------------------------------
Social sentiment (social_sentiment_service.py)
---------------------------------------------------------------------- -/

/-- `SocialMention` (the derived `momentum` attribute is the function
`SocialMention.momentum` below, computed in `__init__` from the same
fields). -/
structure SocialMention where
  symbol : String
  mentions : ℕ
  mentions_24h_ago : ℕ
  sentiment_score : ℚ
  rank : ℕ
  source : String
deriving DecidableEq, Repr

/-- `self.momentum` as computed in `SocialMention.__init__`. -/
def SocialMention.momentum (m : SocialMention) : ℚ :=
  if m.mentions_24h_ago > 0 then
    (((m.mentions : ℚ) - (m.mentions_24h_ago : ℚ)) / (m.mentions_24h_ago : ℚ)) * 100
  else if m.mentions > 0 then 100 else 0

/-- `SocialMention._get_hype_level`. -/
def SocialMention.hypeLevel (m : SocialMention) : String :=
  if m.momentum > 100 ∧ m.mentions > 500 then "EXTREME"
  else if m.momentum > 50 ∧ m.mentions > 200 then "HIGH"
  else if m.momentum > 20 then "MODERATE"
  else "STABLE"

/-- `SocialSentimentService.calculate_hype_score`. -/
def calculateHypeScore (social_mention : Option SocialMention)
    (news_sentiment : ℚ) : ℚ :=
  match social_mention with
  | none => (news_sentiment + 1) / 2
  | some m =>
    let momentum_score := min (m.momentum / 200) 1
    let social_sentiment_score := (m.sentiment_score + 1) / 2
    let news_score := (news_sentiment + 1) / 2
    roundTo 3 (momentum_score * (30/100) + social_sentiment_score * (20/100) +
      news_score * (50/100))

/- ----------------------------------------------------------------------
Shared signal shape (schemas/digest.py DigestItemResponse, decision fields)
---------------------------------------------------------------------- -/

/-- The decision-bearing fields of a `DigestItemResponse`.
`trigger_published` is the publish timestamp of the triggering article
(news-driven generator: surfaced through `news_articles[0].published` and
`metadata["news_age_hours"]`); the periodic generator has no single
triggering event (`none`). -/
structure DigestItem where
  symbol : Option String
  sentiment_score : ℚ
  confidence_score : ℚ
  priority : String
  category : String
  trigger_published : Option ℤ
deriving DecidableEq, Repr

/- ----------------------------------------------------------------------
Periodic / watchlist generator (signal_generator.py)
---------------------------------------------------------------------- -/

/-- A symbol-news article as consumed by `_calculate_news_score` (only its
`sentiment_score`, possibly `None`, is read). -/
structure NewsItem where
  sentiment_score : Option ℚ
deriving DecidableEq, Repr

/-- `SignalGenerator._calculate_news_score`: 0.0 for no articles or no
scored articles, else the clamped average sentiment. -/
def calcNewsScore (articles : List NewsItem) : ℚ :=
  if articles.isEmpty then 0
  else
    let sentiments := articles.filterMap (fun a => a.sentiment_score)
    if sentiments.isEmpty then 0
    else clamp1 (sentiments.sum / (sentiments.length : ℚ))

/-- `SignalGenerator._analyze_symbol`.  Market data and symbol news are
oracles; `Except.error` models an exception from the collaborator, which
the surrounding `try:` turns into `None` (no signal). -/
def analyzeSymbol (fetch : String → Except Unit (Option Analysis))
    (symNews : String → Except Unit (List NewsItem)) (symbol : String) :
    Option DigestItem :=
  match fetch symbol with
  | Except.error _ => none
  | Except.ok none => none
  | Except.ok (some analysis) =>
    match symNews symbol with
    | Except.error _ => none
    | Except.ok news_articles =>
      let tech_score := calcTechScorePeriodic analysis.rsi analysis.macd
        analysis.moving_averages analysis.volume
      let news_score := calcNewsScore news_articles
      let combined_score := tech_score * (6/10) + news_score * (4/10)
      if |combined_score| < 15/100 then none
      else some {
        symbol := some symbol
        sentiment_score := roundTo 2 combined_score
        confidence_score := roundTo 2 |combined_score|
        priority := determinePriorityPeriodic combined_score analysis.volume
        category := determineCategoryPeriodic combined_score analysis.volume
        trigger_published := none }

/-- The per-symbol loop of `SignalGenerator.generate_signals` (each
iteration is wrapped in `try/except … continue`, and `_analyze_symbol`
already catches its own exceptions, so an erroring symbol is skipped). -/
def collectPeriodicSignals (fetch : String → Except Unit (Option Analysis))
    (symNews : String → Except Unit (List NewsItem)) :
    List String → List DigestItem
  | [] => []
  | s :: rest =>
    match analyzeSymbol fetch symNews s with
    | some signal => signal :: collectPeriodicSignals fetch symNews rest
    | none => collectPeriodicSignals fetch symNews rest

/-- `SignalGenerator.generate_signals`: analyze the watchlist, sort by
`confidence_score` descending (Python's stable sort), cap at
`max_signals`. -/
def generateSignalsPeriodic (fetch : String → Except Unit (Option Analysis))
    (symNews : String → Except Unit (List NewsItem))
    (watchlist : List String) (max_signals : ℕ) : List DigestItem :=
  (sortDescBy (fun x => x.confidence_score)
    (collectPeriodicSignals fetch symNews watchlist)).take max_signals

/- ----------------------------------------------------------------------
News-driven generator (news_driven_signal_generator.py)
---------------------------------------------------------------------- -/

/-- A news article after step 2 of `generate_signals` has attached the
FinBERT fields (`sentiment_score`, `ml_confidence`, `sentiment_label`). -/
structure Article where
  title : String
  summary : String
  url : String
  published : ℤ
  sentiment_score : ℚ
  ml_confidence : ℚ
  sentiment_label : String
deriving DecidableEq, Repr

/-- A row of the `signal_history` table (fields consulted by the
deduplication query, plus the expiry written on record). -/
structure SignalHistoryEntry where
  symbol : String
  signal_type : String
  created_at : ℤ
  expires_at : ℤ
  confidence_score : ℚ
deriving DecidableEq, Repr

/-- `NewsDrivenSignalGenerator._is_duplicate_signal`: rows with the same
symbol, same signal type and `created_at ≥ now − 7 days`.  The source
fetches with `scalar_one_or_none()`, which raises when more than one row
matches — modelled as `Except.error`. -/
def isDuplicateSignal (history : List SignalHistoryEntry) (now : ℤ)
    (symbol signal_type : String) : Except Unit Bool :=
  let cutoff_date := now - 7 * 86400
  let hits := history.filter fun e =>
    e.symbol = symbol ∧ e.signal_type = signal_type ∧ cutoff_date ≤ e.created_at
  if 2 ≤ hits.length then Except.error ()
  else Except.ok (hits.length == 1)

/-- One entry of `symbol_opportunities` (step 4 of `generate_signals`). -/
structure Opportunity where
  symbol : String
  symbol_confidence : ℚ
  article : Article
  news_sentiment : ℚ
  ml_confidence : ℚ
  sentiment_label : String
deriving DecidableEq, Repr

/-- `NewsDrivenSignalGenerator._create_signal_from_opportunity`.
`fetch` is `market_data_service.get_comprehensive_analysis`; an
`Except.error` from it models an exception escaping this coroutine (to be
caught by the per-opportunity `try` of the caller).  Python's
`if not current_price` treats a missing and a zero price alike. -/
def createSignalFromOpportunity (_now : ℤ)
    (fetch : String → Except Unit (Option Analysis)) (opp : Opportunity) :
    Except Unit (Option DigestItem) :=
  match fetch opp.symbol with
  | Except.error e => Except.error e
  | Except.ok none => Except.ok none
  | Except.ok (some analysis) =>
    if ¬ truthyQ analysis.price then Except.ok none
    else
      let tech_score := calcTechScoreNews analysis.rsi analysis.macd
        analysis.moving_averages analysis.volume
      let combined_score := opp.news_sentiment * (7/10) + tech_score * (3/10)
      if |combined_score| < 3/10 then Except.ok none
      else Except.ok (some {
        symbol := some opp.symbol
        sentiment_score := roundTo 2 combined_score
        confidence_score := roundTo 2 |combined_score|
        priority := determinePriorityNews combined_score opp.ml_confidence
        category := determineCategory combined_score
        trigger_published := some opp.article.published })

/-- The outcome of processing one opportunity in the step-5 loop, as an
optional signal (an exception and a below-threshold outcome alike produce
no signal). -/
def signalOf (now : ℤ) (fetch : String → Except Unit (Option Analysis))
    (opp : Opportunity) : Option DigestItem :=
  match createSignalFromOpportunity now fetch opp with
  | Except.ok (some s) => some s
  | _ => none

/-- The inner loop of step 4 over the symbols extracted from one article:
each candidate is kept unless `_is_duplicate_signal` reports a recent
signal for (symbol, article's sentiment label); an exception from the
duplicate query (not wrapped in any `try`) aborts the whole generation. -/
def opportunitiesOfArticle (history : List SignalHistoryEntry) (now : ℤ)
    (article : Article) : List SymbolCandidate → Except Unit (List Opportunity)
  | [] => Except.ok []
  | sd :: rest =>
    match isDuplicateSignal history now sd.symbol article.sentiment_label with
    | Except.error e => Except.error e
    | Except.ok dup =>
      match opportunitiesOfArticle history now article rest with
      | Except.error e => Except.error e
      | Except.ok tail =>
        if dup then Except.ok tail
        else
          let opp : Opportunity :=
            { symbol := sd.symbol
              symbol_confidence := sd.confidence
              article := article
              news_sentiment := article.sentiment_score
              ml_confidence := article.ml_confidence
              sentiment_label := article.sentiment_label }
          Except.ok (opp :: tail)

/-- Step 4 of `generate_signals`: collect (still non-duplicate) symbol
opportunities from all significant articles, in article order; the
duplicate check only consults the history as it stood before the run's
processing loop. -/
def collectOpportunities (history : List SignalHistoryEntry) (now : ℤ) :
    List Article → Except Unit (List Opportunity)
  | [] => Except.ok []
  | a :: rest =>
    match opportunitiesOfArticle history now a
      (extractSymbols a.title a.summary (6/10)) with
    | Except.error e => Except.error e
    | Except.ok first =>
      match collectOpportunities history now rest with
      | Except.error e => Except.error e
      | Except.ok tail => Except.ok (first ++ tail)

/-- `NewsDrivenSignalGenerator._record_signal_history` (the fields the
deduplication gate reads, with `created_at` the insertion time and
`expires_at = now + SIGNAL_EXPIRY_DAYS`). -/
def recordSignalHistory (now : ℤ) (opp : Opportunity) (signal : DigestItem) :
    SignalHistoryEntry :=
  { symbol := opp.symbol, signal_type := opp.sentiment_label,
    created_at := now, expires_at := now + 7 * 86400,
    confidence_score := signal.confidence_score }

/-- Step 5 of `generate_signals`: process each opportunity inside
`try/except … continue` — an exception skips just that opportunity; a
successful signal is appended and recorded in the history store. -/
def processOpportunities (now : ℤ)
    (fetch : String → Except Unit (Option Analysis)) :
    List Opportunity → List SignalHistoryEntry →
    List DigestItem × List SignalHistoryEntry
  | [], h => ([], h)
  | opp :: rest, h =>
    match createSignalFromOpportunity now fetch opp with
    | Except.error _ => processOpportunities now fetch rest h
    | Except.ok none => processOpportunities now fetch rest h
    | Except.ok (some signal) =>
      let r := processOpportunities now fetch rest
        (h ++ [recordSignalHistory now opp signal])
      (signal :: r.1, r.2)

/-- `NewsDrivenSignalGenerator.generate_signals`.  `news_articles` is the
result of `news_service.fetch_all_news` (already sorted newest-first by
that service) with the FinBERT sentiment fields attached by step 2;
step 3 filters for `ml_confidence ≥ MIN_SENTIMENT_CONFIDENCE` and
`|sentiment_score| ≥ 0.3`; steps 4–6 are as modelled above, ending with
the stable confidence sort and the `max_signals` cap. -/
def generateSignalsNews (now : ℤ)
    (fetch : String → Except Unit (Option Analysis))
    (history : List SignalHistoryEntry) (news_articles : List Article)
    (max_signals : ℕ) :
    Except Unit (List DigestItem × List SignalHistoryEntry) :=
  if news_articles.isEmpty then Except.ok ([], history)
  else
    let significant_news := news_articles.filter fun a =>
      a.ml_confidence ≥ 6/10 ∧ |a.sentiment_score| ≥ 3/10
    if significant_news.isEmpty then Except.ok ([], history)
    else
      match collectOpportunities history now significant_news with
      | Except.error e => Except.error e
      | Except.ok opps =>
        if opps.isEmpty then Except.ok ([], history)
        else
          let r := processOpportunities now fetch opps history
          Except.ok
            ((sortDescBy (fun x => x.confidence_score) r.1).take max_signals, r.2)

/- ----------------------------------------------------------------------
Concrete inputs used by witnesses and counterexamples
---------------------------------------------------------------------- -/

/-- Moving-average flags of the spec's example scenario
(`above_ema_200=True, golden_cross=True`, nothing else set). -/
def masScenario : MAData :=
  { above_ema_20 := false, above_ema_50 := false, above_ema_200 := true,
    golden_cross := true, death_cross := false }

/-- `high_volume=True` with the `volume_ratio_20day` at its `.get` default 1. -/
def volFlagOnly : VolumeData := { high_volume := true, volume_ratio_20day := 1 }

/-- `high_volume=True` with a ratio clearing the periodic generator's 1.5 bar. -/
def volStrong : VolumeData := { high_volume := true, volume_ratio_20day := 2 }

/-- A social mention whose mention count collapsed (0 now, 100 a day ago)
with fully bearish sentiment. -/
def mentionCollapse : SocialMention :=
  { symbol := "GME", mentions := 0, mentions_24h_ago := 100,
    sentiment_score := -1, rank := 1, source := "reddit" }

/-- Market analysis carrying only a price and an oversold RSI of 25. -/
def analysisRsi25 : Analysis :=
  { price := some 10, rsi := some 25, macd := none,
    moving_averages := none, volume := none }

/-- A market-data oracle that always returns `analysisRsi25`. -/
def fetchRsi25 : String → Except Unit (Option Analysis) :=
  fun _ => Except.ok (some analysisRsi25)

/-- A symbol-news oracle that always returns an empty article list. -/
def emptyNews : String → Except Unit (List NewsItem) :=
  fun _ => Except.ok []

/-- An article with neutral FinBERT sentiment. -/
def artNeutral : Article :=
  { title := "t", summary := "s", url := "u", published := 0,
    sentiment_score := 0, ml_confidence := 9/10, sentiment_label := "neutral" }

/-- An opportunity with sentiment 0 (used against the strength gate). -/
def oppNeutral : Opportunity :=
  { symbol := "AAPL", symbol_confidence := 19/20, article := artNeutral,
    news_sentiment := 0, ml_confidence := 9/10, sentiment_label := "neutral" }

/-- Market analysis carrying only a price (technical score 0). -/
def analysisBare : Analysis :=
  { price := some 10, rsi := none, macd := none,
    moving_averages := none, volume := none }

/-- A market-data oracle that always returns `analysisBare`. -/
def fetchBare : String → Except Unit (Option Analysis) :=
  fun _ => Except.ok (some analysisBare)

/-- First breaking article about AAPL (published at t=100, strongly
positive, high FinBERT confidence). -/
def artPos1 : Article :=
  { title := "$AAPL up", summary := "x", url := "u1", published := 100,
    sentiment_score := 8/10, ml_confidence := 9/10,
    sentiment_label := "positive" }

/-- Second, independent breaking article about AAPL (published at t=90,
same direction). -/
def artPos2 : Article :=
  { title := "$AAPL up", summary := "x", url := "u2", published := 90,
    sentiment_score := 8/10, ml_confidence := 9/10,
    sentiment_label := "positive" }

/-- The symbol opportunities step 4 builds from the two AAPL articles. -/
def oppPos1 : Opportunity :=
  { symbol := "AAPL", symbol_confidence := 19/20, article := artPos1,
    news_sentiment := 8/10, ml_confidence := 9/10,
    sentiment_label := "positive" }

def oppPos2 : Opportunity :=
  { symbol := "AAPL", symbol_confidence := 19/20, article := artPos2,
    news_sentiment := 8/10, ml_confidence := 9/10,
    sentiment_label := "positive" }

/-- The signal each AAPL opportunity produces against `fetchBare`
(combined = 0.8·0.7 + 0·0.3 = 0.56). -/
def sigPos1 : DigestItem :=
  { symbol := some "AAPL", sentiment_score := 14/25, confidence_score := 14/25,
    priority := "medium", category := "watch_list", trigger_published := some 100 }

def sigPos2 : DigestItem :=
  { symbol := some "AAPL", sentiment_score := 14/25, confidence_score := 14/25,
    priority := "medium", category := "watch_list", trigger_published := some 90 }

/-- The history row recorded for each emitted AAPL signal at t=1000. -/
def histPos : SignalHistoryEntry :=
  { symbol := "AAPL", signal_type := "positive", created_at := 1000,
    expires_at := 605800, confidence_score := 14/25 }

/-- A market-data oracle whose lookup finds nothing. -/
def fetchNone : String → Except Unit (Option Analysis) := fun _ => Except.ok none

/-- The signal `_analyze_symbol` produces from `analysisRsi25` with no news:
combined = 0.6·0.3 + 0.4·0.0 = 0.18. -/
def sigC9 : DigestItem :=
  { symbol := some "AAPL", sentiment_score := 9/50, confidence_score := 9/50,
    priority := "low", category := "market_context", trigger_published := none }

/-- A market-data oracle failing (raising) only for symbol "BAD". -/
def fetchFailBad : String → Except Unit (Option Analysis) :=
  fun s => if s = "BAD" then Except.error () else Except.ok (some analysisBare)

/-- An opportunity whose market-data fetch raises. -/
def oppBad : Opportunity :=
  { symbol := "BAD", symbol_confidence := 19/20, article := artPos1,
    news_sentiment := 8/10, ml_confidence := 9/10,
    sentiment_label := "positive" }

/- ----------------------------------------------------------------------
Helper lemmas
---------------------------------------------------------------------- -/

theorem mem_insertDescBy {α : Type} (key : α → ℚ) (x y : α) (l : List α) :
    y ∈ insertDescBy key x l ↔ y = x ∨ y ∈ l := by
  induction l with
  | nil => simp [insertDescBy]
  | cons z zs ih =>
    by_cases h : key x < key z <;> simp [insertDescBy, h, ih] <;> tauto

theorem pairwise_ge_insertDescBy {α : Type} (key : α → ℚ) (x : α) (l : List α)
    (h : l.Pairwise (fun a b => key b ≤ key a)) :
    (insertDescBy key x l).Pairwise (fun a b => key b ≤ key a) := by
  induction l with
  | nil => simp [insertDescBy]
  | cons z zs ih =>
    rcases List.pairwise_cons.mp h with ⟨hz, hzs⟩
    by_cases hxz : key x < key z
    · rw [insertDescBy, if_pos hxz]
      refine List.pairwise_cons.mpr ⟨?_, ih hzs⟩
      intro y hy
      rcases (mem_insertDescBy key x y zs).mp hy with rfl | hy
      · exact le_of_lt hxz
      · exact hz y hy
    · rw [insertDescBy, if_neg hxz]
      refine List.pairwise_cons.mpr ⟨?_, h⟩
      intro y hy
      rcases List.mem_cons.mp hy with rfl | hy
      · exact le_of_not_lt hxz
      · exact le_trans (hz y hy) (le_of_not_lt hxz)

theorem pairwise_ge_sortDescBy {α : Type} (key : α → ℚ) (l : List α) :
    (sortDescBy key l).Pairwise (fun a b => key b ≤ key a) := by
  induction l with
  | nil => simp [sortDescBy]
  | cons x xs ih => exact pairwise_ge_insertDescBy key x (sortDescBy key xs) ih

theorem mem_sortDescBy {α : Type} (key : α → ℚ) (y : α) (l : List α) :
    y ∈ sortDescBy key l ↔ y ∈ l := by
  induction l with
  | nil => simp [sortDescBy]
  | cons x xs ih => simp [sortDescBy, mem_insertDescBy, ih]

/-- Stability of the insertion step: inserting an element that every current
member may follow (relation `T`, e.g. "was triggered no later than")
preserves the combined "strictly larger key, or equal key and `T`" order. -/
theorem pairwise_stable_insertDescBy {α : Type} (key : α → ℚ)
    (T : α → α → Prop) (x : α) (l : List α)
    (hl : l.Pairwise (fun a b => key b < key a ∨ (key a = key b ∧ T a b)))
    (hx : ∀ y ∈ l, T x y) :
    (insertDescBy key x l).Pairwise
      (fun a b => key b < key a ∨ (key a = key b ∧ T a b)) := by
  induction l with
  | nil => simp [insertDescBy]
  | cons z zs ih =>
    rcases List.pairwise_cons.mp hl with ⟨hz, hzs⟩
    by_cases hxz : key x < key z
    · rw [insertDescBy, if_pos hxz]
      refine List.pairwise_cons.mpr ⟨?_, ?_⟩
      · intro y hy
        rcases (mem_insertDescBy key x y zs).mp hy with rfl | hy
        · exact Or.inl hxz
        · exact hz y hy
      · exact ih hzs (fun y hy => hx y (List.mem_cons_of_mem z hy))
    · rw [insertDescBy, if_neg hxz]
      refine List.pairwise_cons.mpr ⟨?_, hl⟩
      intro y hy
      rcases List.mem_cons.mp hy with rfl | hy
      · rcases lt_or_eq_of_le (le_of_not_lt hxz) with hlt | heq
        · exact Or.inl hlt
        · exact Or.inr ⟨heq.symm, hx y (List.mem_cons_self y zs)⟩
      · rcases hz y hy with hlt | ⟨heq, hT⟩
        · exact Or.inl (lt_of_lt_of_le hlt (le_of_not_lt hxz))
        · rcases lt_or_eq_of_le (le_of_not_lt hxz) with hlt2 | heq2
          · exact Or.inl (heq ▸ hlt2)
          · exact Or.inr ⟨heq2.symm.trans heq, hx y (List.mem_cons_of_mem z hy)⟩

/-- Stability of the whole sort: if the input is `T`-ordered (each element
in relation `T` with all later ones), the sorted output is ordered by
"strictly larger key, or equal key and `T`" — Python's stable
`sort(reverse=True)` breaks key ties by input order. -/
theorem pairwise_stable_sortDescBy {α : Type} (key : α → ℚ)
    (T : α → α → Prop) (l : List α) (hl : l.Pairwise T) :
    (sortDescBy key l).Pairwise
      (fun a b => key b < key a ∨ (key a = key b ∧ T a b)) := by
  induction l with
  | nil => simp [sortDescBy]
  | cons x xs ih =>
    rcases List.pairwise_cons.mp hl with ⟨hx, hxs⟩
    refine pairwise_stable_insertDescBy key T x (sortDescBy key xs) (ih hxs) ?_
    intro y hy
    exact hx y ((mem_sortDescBy key y xs).mp hy)

theorem rank_determineCategory (s : ℚ) :
    categoryRank (determineCategory s) =
      if 6/10 < |s| then 2 else if 4/10 < |s| then 1 else 0 := by
  unfold determineCategory
  split_ifs with h1 h2 <;> rfl

theorem le_rhe (q : ℚ) (n : ℤ) (h : (n : ℚ) ≤ q) : n ≤ rhe q := by
  have hf : n ≤ ⌊q⌋ := Int.le_floor.mpr h
  unfold rhe
  split_ifs <;> omega

theorem rhe_le (q : ℚ) (n : ℤ) (h : q ≤ (n : ℚ)) : rhe q ≤ n := by
  have hf : ⌊q⌋ ≤ n := by
    calc ⌊q⌋ ≤ ⌊(n : ℚ)⌋ := Int.floor_le_floor h
    _ = n := Int.floor_intCast n
  have hfl : (⌊q⌋ : ℚ) ≤ q := Int.floor_le q
  unfold rhe
  split_ifs with h1 h2 h3
  · exact hf
  · by_contra hc
    push_neg at hc
    have hfe : ⌊q⌋ = n := by omega
    have : q - (⌊q⌋ : ℚ) ≤ 0 := by
      rw [hfe]
      linarith
    linarith
  · exact hf
  · by_contra hc
    push_neg at hc
    have hfe : ⌊q⌋ = n := by omega
    have hr : q - (⌊q⌋ : ℚ) ≤ 0 := by
      rw [hfe]
      linarith
    push_neg at h1
    linarith

/-- Monotone rounding bounds for `round(·, 3)` between integer-thousandth
endpoints. -/
theorem roundTo3_bounds (q : ℚ) (lo hi : ℤ)
    (h1 : (lo : ℚ)/1000 ≤ q) (h2 : q ≤ (hi : ℚ)/1000) :
    (lo : ℚ)/1000 ≤ roundTo 3 q ∧ roundTo 3 q ≤ (hi : ℚ)/1000 := by
  have e1 : (lo : ℚ) ≤ q * 1000 := by linarith
  have e2 : q * 1000 ≤ (hi : ℚ) := by linarith
  have b1 : lo ≤ rhe (q * 1000) := le_rhe _ _ e1
  have b2 : rhe (q * 1000) ≤ hi := rhe_le _ _ e2
  have c1 : (lo : ℚ) ≤ (rhe (q * 1000) : ℚ) := by exact_mod_cast b1
  have c2 : (rhe (q * 1000) : ℚ) ≤ (hi : ℚ) := by exact_mod_cast b2
  unfold roundTo
  norm_num
  constructor <;> linarith

theorem momentum_lower (m : SocialMention) : -100 ≤ m.momentum := by
  unfold SocialMention.momentum
  split_ifs with h1 h2
  · have hp0 : (0 : ℚ) < (m.mentions_24h_ago : ℚ) := by exact_mod_cast h1
    have hnn : (0 : ℚ) ≤ (m.mentions : ℚ) := by positivity
    have key : (-1 : ℚ) ≤
        ((m.mentions : ℚ) - (m.mentions_24h_ago : ℚ)) / (m.mentions_24h_ago : ℚ) := by
      rw [le_div_iff hp0]
      linarith
    nlinarith [key]
  · norm_num
  · norm_num

theorem momentum_nonneg (m : SocialMention)
    (h : m.mentions_24h_ago ≤ m.mentions) : 0 ≤ m.momentum := by
  unfold SocialMention.momentum
  split_ifs with h1 h2
  · have hp0 : (0 : ℚ) < (m.mentions_24h_ago : ℚ) := by exact_mod_cast h1
    have hnum : (0 : ℚ) ≤ (m.mentions : ℚ) - (m.mentions_24h_ago : ℚ) := by
      have : (m.mentions_24h_ago : ℚ) ≤ (m.mentions : ℚ) := by exact_mod_cast h
      linarith
    positivity
  · norm_num
  · norm_num

/- ----------------------------------------------------------------------
Claim C3
---------------------------------------------------------------------- -/

/-- C3: signal category is a pure function of |combined| — trade_alert for
|combined| > 0.6, watch_list for 0.4 < |combined| ≤ 0.6, market_context
otherwise (identically in both generators, the periodic one ignoring its
volume argument) — and for fixed other inputs increasing |combined| never
decreases the category rank in the order
market_context < watch_list < trade_alert. -/
theorem C3_category_thresholds_and_monotonicity (s t : ℚ)
    (v : Option VolumeData) (hst : |s| ≤ |t|) :
    (determineCategory s = "trade_alert" ↔ 6/10 < |s|) ∧
    (determineCategory s = "watch_list" ↔ 4/10 < |s| ∧ |s| ≤ 6/10) ∧
    (determineCategory s = "market_context" ↔ |s| ≤ 4/10) ∧
    determineCategoryPeriodic s v = determineCategory s ∧
    categoryRank (determineCategory s) ≤ categoryRank (determineCategory t) := by
  refine ⟨?_, ?_, ?_, rfl, ?_⟩
  · unfold determineCategory
    split_ifs with h1 h2
    · simp [h1]
    · simp [h1]
    · simp [h1]
  · unfold determineCategory
    split_ifs with h1 h2
    · simp only [gt_iff_lt] at h1
      simp only [show ("trade_alert" : String) = "watch_list" ↔ False by simp]
      constructor
      · intro h
        exact absurd h id
      · intro h
        exact absurd h1 (not_lt.mpr h.2)
    · simp only [gt_iff_lt, not_lt] at h1
      simp [h2, h1]
    · simp only [gt_iff_lt, not_lt] at h1 h2
      simp only [show ("market_context" : String) = "watch_list" ↔ False by simp]
      constructor
      · intro h
        exact absurd h id
      · intro h
        exact absurd h2 (not_le.mpr h.1)
  · unfold determineCategory
    split_ifs with h1 h2
    · simp only [gt_iff_lt] at h1
      simp only [show ("trade_alert" : String) = "market_context" ↔ False by simp]
      constructor
      · intro h
        exact absurd h id
      · intro h
        linarith
    · simp only [gt_iff_lt] at h2
      simp only [show ("watch_list" : String) = "market_context" ↔ False by simp]
      constructor
      · intro h
        exact absurd h id
      · intro h
        linarith
    · simp only [gt_iff_lt, not_lt] at h1 h2
      simp [h2]
  · rw [rank_determineCategory, rank_determineCategory]
    split_ifs <;> first | omega | linarith

/-- Witness for C3 at s = 1/2, t = 7/10. -/
theorem C3_witness :
    |(1/2 : ℚ)| ≤ |(7/10 : ℚ)| ∧
    determineCategory (1/2) = "watch_list" ∧
    categoryRank (determineCategory (1/2)) ≤ categoryRank (determineCategory (7/10)) := by
  have h := C3_category_thresholds_and_monotonicity (1/2) (7/10) none
    (by rw [abs_of_nonneg, abs_of_nonneg] <;> norm_num)
  exact ⟨by rw [abs_of_nonneg, abs_of_nonneg] <;> norm_num,
    h.2.1.mpr (by rw [abs_of_nonneg] <;> norm_num),
    h.2.2.2.2⟩

/- ----------------------------------------------------------------------
Claim C4
---------------------------------------------------------------------- -/

/-- C4 counterexample: an uninitialised analyzer whose model load fails
propagates the exception to the caller — `analyze_sentiment` calls
`_load_model()` before its `try:` block, and `_load_model` re-raises —
contradicting "never propagates an exception to its caller (including
failure to load the ML model)". -/
theorem C4_counterexample :
    analyzeSentimentML false false (Except.ok (1, 0, 0)) = Except.error () := rfl

/-- C4 amended: once the model is available (already initialised, or the
lazy load succeeds), any processing error during scoring yields the
neutral result (score 0.0, confidence 0.0, label "neutral") and no
exception reaches the caller; however a failure to load the ML model on
first use does propagate as an exception. -/
theorem C4_amended_neutral_on_error (initialized loadOk : Bool)
    (infer : Except Unit (ℚ × ℚ × ℚ)) (h : initialized = true ∨ loadOk = true) :
    analyzeSentimentML initialized loadOk infer ≠ Except.error () ∧
    (∀ e : Unit, infer = Except.error e →
      analyzeSentimentML initialized loadOk infer = Except.ok neutralSentiment) ∧
    neutralSentiment.score = 0 ∧ neutralSentiment.confidence = 0 ∧
    neutralSentiment.label = "neutral" := by
  have hcond : ¬ (initialized = false ∧ loadOk = false) := by
    rcases h with h | h <;> simp [h]
  unfold analyzeSentimentML
  rw [if_neg hcond]
  refine ⟨?_, ?_, rfl, rfl, rfl⟩
  · cases infer with
    | error e => simp
    | ok p => cases p with | mk a bc => simp
  · intro e he
    rw [he]

/-- Witness for C4 (amended): initialised analyzer, failing inference. -/
theorem C4_witness :
    analyzeSentimentML true false (Except.error ()) = Except.ok neutralSentiment ∧
    analyzeSentimentML true false (Except.error ()) ≠ Except.error () :=
  ⟨(C4_amended_neutral_on_error true false (Except.error ()) (Or.inl rfl)).2.1 () rfl,
   (C4_amended_neutral_on_error true false (Except.error ()) (Or.inl rfl)).1⟩

/- ----------------------------------------------------------------------
Claim C5
---------------------------------------------------------------------- -/

/-- C5 counterexample: with rsi=25, bullish MACD crossover,
above_ema_200, golden_cross and high_volume, neither generator's technical
score equals 0.3+0.25+0.1+0.2+0.15 (= 1.0 clamped): the news-driven
generator scores 0.95 (its constants are 0.3, 0.2, 0.15, 0.2, 0.1) and the
periodic one scores 0.8 (0.3+0.25+0.1+0.15, the 0.15 volume bonus also
needing volume_ratio_20day > 1.5); moreover at sentiment 0 (non-negative)
the periodic category is watch_list, not trade_alert, and the news-driven
combined score 0.285 falls below the 0.3 gate, so no signal at all. -/
theorem C5_counterexample :
    calcTechScoreNews (some 25) (some Crossover.bullish) (some masScenario)
      (some volFlagOnly) = 19/20 ∧
    calcTechScorePeriodic (some 25) (some Crossover.bullish) (some masScenario)
      (some volFlagOnly) = 4/5 ∧
    ((19 : ℚ)/20 ≠ 1) ∧ ((4 : ℚ)/5 ≠ 1) ∧
    determineCategory ((0 : ℚ) * (7/10) + (19/20) * (3/10)) = "market_context" ∧
    |(0 : ℚ) * (7/10) + (19/20) * (3/10)| < 3/10 ∧
    determineCategoryPeriodic ((4/5 : ℚ) * (6/10) + 0 * (4/10)) (some volFlagOnly)
      = "watch_list" := by
  refine ⟨?_, ?_, by norm_num, by norm_num, ?_, ?_, ?_⟩
  · norm_num [calcTechScoreNews, masScenario, volFlagOnly, truthyQ, clamp1]
  · norm_num [calcTechScorePeriodic, masScenario, volFlagOnly, clamp1]
  · norm_num [determineCategory, abs_of_nonneg]
  · rw [show ((0 : ℚ) * (7/10) + (19/20) * (3/10)) = 57/200 by norm_num,
      abs_of_nonneg (by norm_num)]
    norm_num
  · norm_num [determineCategoryPeriodic, determineCategory, abs_of_nonneg]

/-- C5 amended: for those inputs the technical score is 0.95 in the
news-driven generator and 0.8 in the periodic one (0.95 when the volume
ratio additionally exceeds 1.5); combined with any non-negative sentiment
the periodic generator assigns at least watch_list, and it assigns
trade_alert exactly when the news score exceeds 0.3. -/
theorem C5_amended_scores (n : ℚ) (h0 : 0 ≤ n) (h1 : n ≤ 1) :
    calcTechScoreNews (some 25) (some Crossover.bullish) (some masScenario)
      (some volFlagOnly) = 19/20 ∧
    calcTechScorePeriodic (some 25) (some Crossover.bullish) (some masScenario)
      (some volFlagOnly) = 4/5 ∧
    calcTechScorePeriodic (some 25) (some Crossover.bullish) (some masScenario)
      (some volStrong) = 19/20 ∧
    1 ≤ categoryRank (determineCategoryPeriodic ((4/5 : ℚ) * (6/10) + n * (4/10))
      (some volFlagOnly)) ∧
    (determineCategoryPeriodic ((4/5 : ℚ) * (6/10) + n * (4/10)) (some volFlagOnly)
      = "trade_alert" ↔ 3/10 < n) := by
  have habs : |(4/5 : ℚ) * (6/10) + n * (4/10)| = (4/5 : ℚ) * (6/10) + n * (4/10) :=
    abs_of_nonneg (by linarith)
  refine ⟨?_, ?_, ?_, ?_, ?_⟩
  · norm_num [calcTechScoreNews, masScenario, volFlagOnly, truthyQ, clamp1]
  · norm_num [calcTechScorePeriodic, masScenario, volFlagOnly, clamp1]
  · norm_num [calcTechScorePeriodic, masScenario, volStrong, clamp1]
  · show 1 ≤ categoryRank (determineCategory _)
    rw [rank_determineCategory, habs]
    split_ifs with ha hb
    · omega
    · omega
    · exfalso
      push_neg at hb
      linarith
  · show determineCategory _ = "trade_alert" ↔ 3/10 < n
    unfold determineCategory
    rw [habs]
    split_ifs with ha hb
    · simp only [gt_iff_lt] at ha
      constructor
      · intro _
        linarith
      · intro _
        rfl
    · simp only [gt_iff_lt, not_lt] at ha
      constructor
      · intro h
        exact absurd h (by simp)
      · intro h
        exfalso
        linarith
    · constructor
      · intro h
        exact absurd h (by simp)
      · intro h
        exfalso
        push_neg at hb
        linarith

/-- Witness for C5 (amended) at sentiment n = 1/2. -/
theorem C5_witness :
    (0 : ℚ) ≤ 1/2 ∧ (1/2 : ℚ) ≤ 1 ∧
    determineCategoryPeriodic ((4/5 : ℚ) * (6/10) + (1/2) * (4/10)) (some volFlagOnly)
      = "trade_alert" :=
  ⟨by norm_num, by norm_num,
   ((C5_amended_scores (1/2) (by norm_num) (by norm_num)).2.2.2.2).mpr (by norm_num)⟩

/- ----------------------------------------------------------------------
Claim C6
---------------------------------------------------------------------- -/

/-- C6 counterexample: when the mention count collapses (0 now vs 100 a
day ago) momentum is −100, `min(momentum/200, 1)` is −0.5, and with both
sentiments at −1 the hype score is −0.15 — outside the claimed range
[0, 1]. -/
theorem C6_counterexample :
    SocialMention.momentum mentionCollapse = -100 ∧
    calculateHypeScore (some mentionCollapse) (-1) = -(3/20) ∧
    ¬ (0 ≤ calculateHypeScore (some mentionCollapse) (-1)) := by
  have hm : SocialMention.momentum mentionCollapse = -100 := by
    norm_num [SocialMention.momentum, mentionCollapse]
  have hh : calculateHypeScore (some mentionCollapse) (-1) = -(3/20) := by
    rw [calculateHypeScore, hm]
    norm_num [min_def, mentionCollapse, roundTo, rhe]
  exact ⟨hm, hh, by rw [hh]; norm_num⟩

/-- C6 amended: momentum and the weighted hype formula are exactly as
claimed, but the returned hype score lies in [−0.15, 1] (the momentum term
`min(momentum/200, 1)` has no lower clamp); it lies in [0, 1] whenever the
mention count did not decline. -/
theorem C6_amended_hype_formula_and_range (m : SocialMention) (news : ℚ)
    (hs1 : -1 ≤ m.sentiment_score) (hs2 : m.sentiment_score ≤ 1)
    (hn1 : -1 ≤ news) (hn2 : news ≤ 1) :
    (m.mentions_24h_ago > 0 →
      m.momentum = (((m.mentions : ℚ) - (m.mentions_24h_ago : ℚ)) /
        (m.mentions_24h_ago : ℚ)) * 100) ∧
    (m.mentions_24h_ago = 0 →
      m.momentum = if m.mentions > 0 then 100 else 0) ∧
    calculateHypeScore (some m) news =
      roundTo 3 (min (m.momentum / 200) 1 * (30/100) +
        ((m.sentiment_score + 1) / 2) * (20/100) +
        ((news + 1) / 2) * (50/100)) ∧
    -(3/20) ≤ calculateHypeScore (some m) news ∧
    calculateHypeScore (some m) news ≤ 1 ∧
    (m.mentions_24h_ago ≤ m.mentions → 0 ≤ calculateHypeScore (some m) news) := by
  have heq : calculateHypeScore (some m) news =
      roundTo 3 (min (m.momentum / 200) 1 * (30/100) +
        ((m.sentiment_score + 1) / 2) * (20/100) +
        ((news + 1) / 2) * (50/100)) := rfl
  have hms_lo : -(1/2 : ℚ) ≤ min (m.momentum / 200) 1 :=
    le_min (by linarith [momentum_lower m]) (by norm_num)
  have hms_hi : min (m.momentum / 200) 1 ≤ 1 := min_le_right _ _
  have hraw_lo : (((-150 : ℤ) : ℚ))/1000 ≤
      min (m.momentum / 200) 1 * (30/100) +
        ((m.sentiment_score + 1) / 2) * (20/100) +
        ((news + 1) / 2) * (50/100) := by
    push_cast
    nlinarith [hms_lo, hs1, hn1]
  have hraw_hi :
      min (m.momentum / 200) 1 * (30/100) +
        ((m.sentiment_score + 1) / 2) * (20/100) +
        ((news + 1) / 2) * (50/100) ≤ ((1000 : ℤ) : ℚ)/1000 := by
    push_cast
    nlinarith [hms_hi, hs2, hn2]
  have hb := roundTo3_bounds _ (-150) 1000 hraw_lo hraw_hi
  refine ⟨?_, ?_, heq, ?_, ?_, ?_⟩
  · intro h
    unfold SocialMention.momentum
    rw [if_pos h]
  · intro h
    unfold SocialMention.momentum
    rw [if_neg (by omega)]
  · rw [heq]
    have := hb.1
    push_cast at this
    linarith
  · rw [heq]
    have := hb.2
    push_cast at this
    linarith
  · intro h
    have hmom : 0 ≤ m.momentum := momentum_nonneg m h
    have hms0 : 0 ≤ min (m.momentum / 200) 1 := le_min (by positivity) (by norm_num)
    have hraw0 : (((0 : ℤ) : ℚ))/1000 ≤
        min (m.momentum / 200) 1 * (30/100) +
          ((m.sentiment_score + 1) / 2) * (20/100) +
          ((news + 1) / 2) * (50/100) := by
      push_cast
      nlinarith [hms0, hs1, hn1]
    have hb2 := roundTo3_bounds _ 0 1000 hraw0 hraw_hi
    rw [heq]
    have := hb2.1
    push_cast at this
    linarith

/-- Witness for C6 (amended) at the collapsing mention and news −1. -/
theorem C6_witness :
    -(3/20) ≤ calculateHypeScore (some mentionCollapse) (-1) ∧
    calculateHypeScore (some mentionCollapse) (-1) ≤ 1 := by
  have h := C6_amended_hype_formula_and_range mentionCollapse (-1)
    (by norm_num [mentionCollapse]) (by norm_num [mentionCollapse])
    (by norm_num) (by norm_num)
  exact ⟨h.2.2.2.1, h.2.2.2.2.1⟩

/- ----------------------------------------------------------------------
Claim C1
---------------------------------------------------------------------- -/

/-- C1: for every (symbol, news-event) opportunity the news-driven fusion
combines `0.7·news_sentiment + 0.3·technical_score` and returns no signal
whenever |combined| < 0.3, and the watchlist/periodic fusion combines
`0.6·technical_score + 0.4·news_score` and returns no signal whenever
|combined| < 0.15; on emission the signal's scores are the rounded
combined value, witnessing the weights. -/
theorem C1_fusion_weights_and_gates (now : ℤ)
    (fetchN : String → Except Unit (Option Analysis))
    (opp : Opportunity) (analysisN : Analysis)
    (hN : fetchN opp.symbol = Except.ok (some analysisN))
    (fetchP : String → Except Unit (Option Analysis))
    (symNews : String → Except Unit (List NewsItem)) (sym : String)
    (analysisP : Analysis) (arts : List NewsItem)
    (hP : fetchP sym = Except.ok (some analysisP))
    (hA : symNews sym = Except.ok arts) :
    (∀ sig, createSignalFromOpportunity now fetchN opp = Except.ok (some sig) →
      sig.sentiment_score = roundTo 2 (opp.news_sentiment * (7/10) +
        calcTechScoreNews analysisN.rsi analysisN.macd analysisN.moving_averages
          analysisN.volume * (3/10)) ∧
      sig.confidence_score = roundTo 2 |opp.news_sentiment * (7/10) +
        calcTechScoreNews analysisN.rsi analysisN.macd analysisN.moving_averages
          analysisN.volume * (3/10)|) ∧
    (|opp.news_sentiment * (7/10) + calcTechScoreNews analysisN.rsi analysisN.macd
        analysisN.moving_averages analysisN.volume * (3/10)| < 3/10 →
      createSignalFromOpportunity now fetchN opp = Except.ok none) ∧
    (∀ sig, analyzeSymbol fetchP symNews sym = some sig →
      sig.sentiment_score = roundTo 2 (calcTechScorePeriodic analysisP.rsi
        analysisP.macd analysisP.moving_averages analysisP.volume * (6/10) +
        calcNewsScore arts * (4/10)) ∧
      sig.confidence_score = roundTo 2 |calcTechScorePeriodic analysisP.rsi
        analysisP.macd analysisP.moving_averages analysisP.volume * (6/10) +
        calcNewsScore arts * (4/10)|) ∧
    (|calcTechScorePeriodic analysisP.rsi analysisP.macd analysisP.moving_averages
        analysisP.volume * (6/10) + calcNewsScore arts * (4/10)| < 15/100 →
      analyzeSymbol fetchP symNews sym = none) := by
  refine ⟨?_, ?_, ?_, ?_⟩
  · intro sig hsig
    unfold createSignalFromOpportunity at hsig
    rw [hN] at hsig
    dsimp only at hsig
    by_cases hp : truthyQ analysisN.price = true
    · rw [if_neg (not_not_intro hp)] at hsig
      by_cases hg : |opp.news_sentiment * (7/10) + calcTechScoreNews analysisN.rsi
          analysisN.macd analysisN.moving_averages analysisN.volume * (3/10)| < 3/10
      · rw [if_pos hg] at hsig
        exact absurd hsig (by simp)
      · rw [if_neg hg] at hsig
        obtain rfl := (Option.some.inj (Except.ok.inj hsig))
        exact ⟨rfl, rfl⟩
    · rw [if_pos hp] at hsig
      exact absurd hsig (by simp)
  · intro hlt
    unfold createSignalFromOpportunity
    rw [hN]
    dsimp only
    by_cases hp : truthyQ analysisN.price = true
    · rw [if_neg (not_not_intro hp), if_pos hlt]
    · rw [if_pos hp]
  · intro sig hsig
    unfold analyzeSymbol at hsig
    rw [hP, hA] at hsig
    dsimp only at hsig
    by_cases hg : |calcTechScorePeriodic analysisP.rsi analysisP.macd
        analysisP.moving_averages analysisP.volume * (6/10) +
        calcNewsScore arts * (4/10)| < 15/100
    · rw [if_pos hg] at hsig
      exact Option.noConfusion hsig
    · rw [if_neg hg] at hsig
      obtain rfl := Option.some.inj hsig
      exact ⟨rfl, rfl⟩
  · intro hlt
    unfold analyzeSymbol
    rw [hP, hA]
    dsimp only
    rw [if_pos hlt]

/-- Witness for C1: a neutral-sentiment opportunity (combined 0.09 < 0.3)
yields no news-driven signal, and a bare analysis with no news
(combined 0 < 0.15) yields no periodic signal. -/
theorem C1_witness :
    |oppNeutral.news_sentiment * (7/10) + calcTechScoreNews analysisRsi25.rsi
      analysisRsi25.macd analysisRsi25.moving_averages analysisRsi25.volume
      * (3/10)| < 3/10 ∧
    createSignalFromOpportunity 0 fetchRsi25 oppNeutral = Except.ok none ∧
    |calcTechScorePeriodic analysisBare.rsi analysisBare.macd
      analysisBare.moving_averages analysisBare.volume * (6/10) +
      calcNewsScore [] * (4/10)| < 15/100 ∧
    analyzeSymbol fetchBare emptyNews "AAPL" = none := by
  have hlt1 : |oppNeutral.news_sentiment * (7/10) + calcTechScoreNews
      analysisRsi25.rsi analysisRsi25.macd analysisRsi25.moving_averages
      analysisRsi25.volume * (3/10)| < 3/10 := by
    rw [show oppNeutral.news_sentiment * (7/10) + calcTechScoreNews
        analysisRsi25.rsi analysisRsi25.macd analysisRsi25.moving_averages
        analysisRsi25.volume * (3/10) = 9/100 from by
      norm_num [oppNeutral, analysisRsi25, calcTechScoreNews, truthyQ, clamp1]]
    rw [abs_of_nonneg (by norm_num)]
    norm_num
  have hlt2 : |calcTechScorePeriodic analysisBare.rsi analysisBare.macd
      analysisBare.moving_averages analysisBare.volume * (6/10) +
      calcNewsScore [] * (4/10)| < 15/100 := by
    rw [show calcTechScorePeriodic analysisBare.rsi analysisBare.macd
        analysisBare.moving_averages analysisBare.volume * (6/10) +
        calcNewsScore [] * (4/10) = 0 from by
      norm_num [analysisBare, calcTechScorePeriodic, calcNewsScore, clamp1]]
    norm_num
  have h := C1_fusion_weights_and_gates 0 fetchRsi25 oppNeutral analysisRsi25 rfl
    fetchBare emptyNews "AAPL" analysisBare [] rfl rfl
  exact ⟨hlt1, h.2.1 hlt1, hlt2, h.2.2.2 hlt2⟩

/- ----------------------------------------------------------------------
Concrete evaluation of one news-driven run (two positive AAPL articles
against an empty history) — shared by several witnesses below.
---------------------------------------------------------------------- -/

theorem extract_aapl :
    extractSymbols "$AAPL up" "x" (6/10) =
      [{ symbol := "AAPL", confidence := 19/20, method := "ticker_pattern" }] := by
  have ht1 : extractTickersFromText ['$', 'A', 'A', 'P', 'L', ' ', 'u', 'p', ' ', 'x']
      = ["AAPL"] := by decide
  have ht2 : extractCompaniesFromText ['$', 'A', 'A', 'P', 'L', ' ', 'u', 'p', ' ', 'x']
      = [] := by decide
  norm_num +decide [extractSymbols, tickerStep, companyStep, ht1, ht2, sortDescBy, insertDescBy]

theorem collect_aapl :
    collectOpportunities [] 1000 [artPos1, artPos2] = Except.ok [oppPos1, oppPos2] := by
  have h1 : extractSymbols artPos1.title artPos1.summary (6/10) =
      [{ symbol := "AAPL", confidence := 19/20, method := "ticker_pattern" }] :=
    extract_aapl
  have h2 : extractSymbols artPos2.title artPos2.summary (6/10) =
      [{ symbol := "AAPL", confidence := 19/20, method := "ticker_pattern" }] :=
    extract_aapl
  simp only [collectOpportunities, h1, h2]
  rfl

theorem create_aapl1 :
    createSignalFromOpportunity 1000 fetchBare oppPos1 = Except.ok (some sigPos1) := by
  norm_num [createSignalFromOpportunity, fetchBare, analysisBare, oppPos1, artPos1,
    sigPos1, truthyQ, calcTechScoreNews, clamp1, determinePriorityNews,
    determineCategory, roundTo, rhe, abs_of_nonneg, Int.fract]

theorem create_aapl2 :
    createSignalFromOpportunity 1000 fetchBare oppPos2 = Except.ok (some sigPos2) := by
  norm_num [createSignalFromOpportunity, fetchBare, analysisBare, oppPos2, artPos2,
    sigPos2, truthyQ, calcTechScoreNews, clamp1, determinePriorityNews,
    determineCategory, roundTo, rhe, abs_of_nonneg, Int.fract]

theorem process_aapl :
    processOpportunities 1000 fetchBare [oppPos1, oppPos2] [] =
      ([sigPos1, sigPos2], [histPos, histPos]) := by
  simp only [processOpportunities, create_aapl1, create_aapl2, recordSignalHistory]
  norm_num [oppPos1, oppPos2, sigPos1, sigPos2, histPos]

theorem news_run_eval :
    generateSignalsNews 1000 fetchBare [] [artPos1, artPos2] 10 =
      Except.ok ([sigPos1, sigPos2], [histPos, histPos]) := by
  have hfilter : [artPos1, artPos2].filter (fun a =>
      a.ml_confidence ≥ 6/10 ∧ |a.sentiment_score| ≥ 3/10) = [artPos1, artPos2] := by
    norm_num [List.filter, artPos1, artPos2, abs_of_nonneg]
  have hsort : sortDescBy (fun x => x.confidence_score) [sigPos1, sigPos2] =
      [sigPos1, sigPos2] := by
    norm_num [sortDescBy, insertDescBy, sigPos1, sigPos2]
  simp only [generateSignalsNews, hfilter, collect_aapl, process_aapl, hsort]
  rfl

/- ----------------------------------------------------------------------
Structural lemmas about the two generators
---------------------------------------------------------------------- -/

/-- The step-5 try/except loop: its emitted signals are exactly the
opportunities whose processing succeeds with a signal, in order; the
threaded history plays no role in which signals are produced. -/
theorem processOpportunities_signals (now : ℤ)
    (fetch : String → Except Unit (Option Analysis)) (opps : List Opportunity)
    (h : List SignalHistoryEntry) :
    (processOpportunities now fetch opps h).1 =
      opps.filterMap (signalOf now fetch) := by
  induction opps generalizing h with
  | nil => rfl
  | cons opp rest ih =>
    cases hc : createSignalFromOpportunity now fetch opp with
    | error e => simp [processOpportunities, signalOf, hc, ih, List.filterMap_cons]
    | ok o =>
      cases o with
      | none => simp [processOpportunities, signalOf, hc, ih, List.filterMap_cons]
      | some s => simp [processOpportunities, signalOf, hc, ih, List.filterMap_cons]

/-- `signalOf` succeeds exactly when signal creation returns a signal. -/
theorem signalOf_eq_some (now : ℤ)
    (fetch : String → Except Unit (Option Analysis)) (opp : Opportunity)
    (sig : DigestItem) :
    signalOf now fetch opp = some sig ↔
      createSignalFromOpportunity now fetch opp = Except.ok (some sig) := by
  unfold signalOf
  cases hc : createSignalFromOpportunity now fetch opp with
  | error e => simp
  | ok o =>
    cases o with
    | none => simp
    | some s => simp

/-- The periodic per-symbol loop is a `filterMap` over the watchlist. -/
theorem collectPeriodic_eq_filterMap (fetch : String → Except Unit (Option Analysis))
    (symNews : String → Except Unit (List NewsItem)) (ws : List String) :
    collectPeriodicSignals fetch symNews ws = ws.filterMap (analyzeSymbol fetch symNews) := by
  induction ws with
  | nil => rfl
  | cons s rest ih =>
    cases hs : analyzeSymbol fetch symNews s <;>
      simp [collectPeriodicSignals, hs, ih, List.filterMap_cons]

/-- A successfully created signal carries its opportunity's symbol and the
triggering article's publish timestamp. -/
theorem createSignal_ok_some (now : ℤ)
    (fetch : String → Except Unit (Option Analysis)) (opp : Opportunity)
    (sig : DigestItem)
    (hsig : createSignalFromOpportunity now fetch opp = Except.ok (some sig)) :
    sig.trigger_published = some opp.article.published ∧
    sig.symbol = some opp.symbol := by
  unfold createSignalFromOpportunity at hsig
  cases hf : fetch opp.symbol with
  | error e =>
    rw [hf] at hsig
    exact absurd hsig (by simp)
  | ok o =>
    rw [hf] at hsig
    cases o with
    | none => exact absurd hsig (by simp)
    | some an =>
      dsimp only at hsig
      by_cases hp : truthyQ an.price = true
      · rw [if_neg (not_not_intro hp)] at hsig
        by_cases hg : |opp.news_sentiment * (7/10) + calcTechScoreNews an.rsi
            an.macd an.moving_averages an.volume * (3/10)| < 3/10
        · rw [if_pos hg] at hsig
          exact absurd hsig (by simp)
        · rw [if_neg hg] at hsig
          obtain rfl := (Option.some.inj (Except.ok.inj hsig))
          exact ⟨rfl, rfl⟩
      · rw [if_pos hp] at hsig
        exact absurd hsig (by simp)

theorem opportunitiesOfArticle_mem (h : List SignalHistoryEntry) (now : ℤ)
    (a : Article) (sds : List SymbolCandidate) (opps : List Opportunity)
    (hres : opportunitiesOfArticle h now a sds = Except.ok opps) :
    ∀ o ∈ opps, o.article = a ∧
      isDuplicateSignal h now o.symbol o.sentiment_label = Except.ok false := by
  induction sds generalizing opps with
  | nil =>
    obtain rfl := Except.ok.inj hres.symm
    intro o ho
    exact absurd ho (List.not_mem_nil o)
  | cons sd rest ih =>
    unfold opportunitiesOfArticle at hres
    cases hd : isDuplicateSignal h now sd.symbol a.sentiment_label with
    | error e =>
      rw [hd] at hres
      exact absurd hres (by simp)
    | ok dup =>
      rw [hd] at hres
      cases hr : opportunitiesOfArticle h now a rest with
      | error e =>
        rw [hr] at hres
        exact absurd hres (by simp)
      | ok tail =>
        rw [hr] at hres
        dsimp only at hres
        cases dup with
        | true =>
          simp only [reduceIte] at hres
          obtain rfl := Except.ok.inj hres
          exact ih tail hr
        | false =>
          simp only [Bool.false_eq_true, reduceIte] at hres
          obtain rfl := Except.ok.inj hres
          intro o ho
          rcases List.mem_cons.mp ho with rfl | ho
          · exact ⟨rfl, hd⟩
          · exact ih tail hr o ho

theorem collectOpportunities_mem (h : List SignalHistoryEntry) (now : ℤ)
    (articles : List Article) (opps : List Opportunity)
    (hres : collectOpportunities h now articles = Except.ok opps) :
    ∀ o ∈ opps, (∃ a ∈ articles, o.article = a) ∧
      isDuplicateSignal h now o.symbol o.sentiment_label = Except.ok false := by
  induction articles generalizing opps with
  | nil =>
    obtain rfl := Except.ok.inj hres.symm
    intro o ho
    exact absurd ho (List.not_mem_nil o)
  | cons a rest ih =>
    unfold collectOpportunities at hres
    cases h1 : opportunitiesOfArticle h now a
        (extractSymbols a.title a.summary (6/10)) with
    | error e =>
      rw [h1] at hres
      exact absurd hres (by simp)
    | ok first =>
      rw [h1] at hres
      cases h2 : collectOpportunities h now rest with
      | error e =>
        rw [h2] at hres
        exact absurd hres (by simp)
      | ok tail =>
        rw [h2] at hres
        obtain rfl := Except.ok.inj hres
        intro o ho
        rcases List.mem_append.mp ho with hof | hot
        · have hm := opportunitiesOfArticle_mem h now a _ first h1 o hof
          exact ⟨⟨a, List.mem_cons_self a rest, hm.1⟩, hm.2⟩
        · obtain ⟨⟨ar, har, hoar⟩, hdup⟩ := ih tail h2 o hot
          exact ⟨⟨ar, List.mem_cons_of_mem a har, hoar⟩, hdup⟩

theorem collectOpportunities_pairwise (h : List SignalHistoryEntry) (now : ℤ)
    (articles : List Article) (opps : List Opportunity)
    (hres : collectOpportunities h now articles = Except.ok opps)
    (hs : articles.Pairwise (fun x y => y.published ≤ x.published)) :
    opps.Pairwise (fun o1 o2 => o2.article.published ≤ o1.article.published) := by
  induction articles generalizing opps with
  | nil =>
    obtain rfl := Except.ok.inj hres.symm
    exact List.Pairwise.nil
  | cons a rest ih =>
    unfold collectOpportunities at hres
    cases h1 : opportunitiesOfArticle h now a
        (extractSymbols a.title a.summary (6/10)) with
    | error e =>
      rw [h1] at hres
      exact absurd hres (by simp)
    | ok first =>
      rw [h1] at hres
      cases h2 : collectOpportunities h now rest with
      | error e =>
        rw [h2] at hres
        exact absurd hres (by simp)
      | ok tail =>
        rw [h2] at hres
        obtain rfl := Except.ok.inj hres
        rcases List.pairwise_cons.mp hs with ⟨ha, hrest⟩
        apply List.pairwise_append.mpr
        refine ⟨?_, ih tail h2 hrest, ?_⟩
        · apply List.pairwise_of_forall_mem_list
          intro o1 ho1 o2 ho2
          rw [(opportunitiesOfArticle_mem h now a _ first h1 o1 ho1).1,
            (opportunitiesOfArticle_mem h now a _ first h1 o2 ho2).1]
        · intro o1 ho1 o2 ho2
          obtain ⟨⟨ar, har, hoar⟩, _⟩ := collectOpportunities_mem h now rest tail h2 o2 ho2
          rw [(opportunitiesOfArticle_mem h now a _ first h1 o1 ho1).1, hoar]
          exact ha ar har

theorem isDuplicate_blocks (h : List SignalHistoryEntry) (now : ℤ) (s d : String)
    (hex : ∃ e ∈ h, e.symbol = s ∧ e.signal_type = d ∧
      now - 7 * 86400 ≤ e.created_at) :
    isDuplicateSignal h now s d ≠ Except.ok false := by
  obtain ⟨e, he, h1, h2, h3⟩ := hex
  have hmem : e ∈ h.filter (fun e =>
      e.symbol = s ∧ e.signal_type = d ∧ now - 7 * 86400 ≤ e.created_at) := by
    simp only [List.mem_filter, decide_eq_true_eq]
    exact ⟨he, h1, h2, h3⟩
  have hpos : 0 < (h.filter (fun e =>
      e.symbol = s ∧ e.signal_type = d ∧ now - 7 * 86400 ≤ e.created_at)).length :=
    List.length_pos.mpr (List.ne_nil_of_mem hmem)
  unfold isDuplicateSignal
  dsimp only
  split_ifs with hlen
  · simp
  · push_neg at hlen
    intro hcon
    have := Except.ok.inj hcon
    have h1eq : (h.filter (fun e =>
        e.symbol = s ∧ e.signal_type = d ∧ now - 7 * 86400 ≤ e.created_at)).length = 1 := by
      omega
    rw [h1eq] at this
    simp at this

theorem isDuplicate_expired (h : List SignalHistoryEntry) (now : ℤ) (s d : String)
    (hexp : ∀ e ∈ h, e.symbol = s → e.signal_type = d →
      e.created_at < now - 7 * 86400) :
    isDuplicateSignal h now s d = Except.ok false := by
  have hfil : h.filter (fun e =>
      e.symbol = s ∧ e.signal_type = d ∧ now - 7 * 86400 ≤ e.created_at) = [] := by
    rw [List.filter_eq_nil_iff]
    intro e he
    simp only [decide_eq_true_eq, not_and, not_le]
    intro h1 h2
    exact hexp e he h1 h2
  unfold isDuplicateSignal
  dsimp only
  rw [hfil]
  norm_num

theorem processOpportunities_history_mono (now : ℤ)
    (fetch : String → Except Unit (Option Analysis)) (opps : List Opportunity)
    (h : List SignalHistoryEntry) (e : SignalHistoryEntry) (he : e ∈ h) :
    e ∈ (processOpportunities now fetch opps h).2 := by
  induction opps generalizing h with
  | nil => exact he
  | cons opp rest ih =>
    cases hc : createSignalFromOpportunity now fetch opp with
    | error u =>
      unfold processOpportunities
      rw [hc]
      exact ih h he
    | ok o =>
      cases o with
      | none =>
        unfold processOpportunities
        rw [hc]
        exact ih h he
      | some s =>
        unfold processOpportunities
        rw [hc]
        exact ih _ (List.mem_append_left _ he)

theorem processOpportunities_records (now : ℤ)
    (fetch : String → Except Unit (Option Analysis)) (opps : List Opportunity)
    (h : List SignalHistoryEntry) (o : Opportunity) (sig : DigestItem)
    (ho : o ∈ opps)
    (hsig : createSignalFromOpportunity now fetch o = Except.ok (some sig)) :
    recordSignalHistory now o sig ∈ (processOpportunities now fetch opps h).2 := by
  induction opps generalizing h with
  | nil => exact absurd ho (List.not_mem_nil o)
  | cons opp rest ih =>
    rcases List.mem_cons.mp ho with rfl | ho2
    · unfold processOpportunities
      rw [hsig]
      exact processOpportunities_history_mono now fetch rest _ _
        (List.mem_append_right _ (List.mem_singleton.mpr rfl))
    · cases hc : createSignalFromOpportunity now fetch opp with
      | error u =>
        unfold processOpportunities
        rw [hc]
        exact ih h ho2
      | ok oo =>
        cases oo with
        | none =>
          unfold processOpportunities
          rw [hc]
          exact ih h ho2
        | some s =>
          unfold processOpportunities
          rw [hc]
          exact ih _ ho2

/-- C8: an error while processing one opportunity (here a market-data
fetch failure / exception) causes only that opportunity to be skipped:
the signals of the run are exactly those produced with the failing
opportunity absent, in both generators; the loops are total (the
`try/except … continue` never aborts the batch). -/
theorem C8_per_opportunity_error_isolation (now : ℤ) (fetch : String → Except Unit (Option Analysis))
    (h : List SignalHistoryEntry) (l1 l2 : List Opportunity) (opp : Opportunity)
    (herr : createSignalFromOpportunity now fetch opp = Except.error ())
    (fetchP : String → Except Unit (Option Analysis))
    (symNews : String → Except Unit (List NewsItem))
    (w1 w2 : List String) (s : String)
    (herrP : fetchP s = Except.error ()) :
    (processOpportunities now fetch (l1 ++ opp :: l2) h).1 =
      (processOpportunities now fetch (l1 ++ l2) h).1 ∧
    collectPeriodicSignals fetchP symNews (w1 ++ s :: w2) =
      collectPeriodicSignals fetchP symNews (w1 ++ w2) := by
  constructor
  · rw [processOpportunities_signals, processOpportunities_signals,
      List.filterMap_append, List.filterMap_append, List.filterMap_cons]
    have hnone : signalOf now fetch opp = none := by
      unfold signalOf
      rw [herr]
    rw [hnone]
  · rw [collectPeriodic_eq_filterMap, collectPeriodic_eq_filterMap,
      List.filterMap_append, List.filterMap_append, List.filterMap_cons]
    have hnone : analyzeSymbol fetchP symNews s = none := by
      unfold analyzeSymbol
      rw [herrP]
    rw [hnone]

/-- Witness for C8: a raising "BAD" symbol amid a good AAPL opportunity
changes nothing for the latter. -/
theorem C8_witness :
    createSignalFromOpportunity 1000 fetchFailBad oppBad = Except.error () ∧
    fetchFailBad "BAD" = Except.error () ∧
    (processOpportunities 1000 fetchFailBad ([] ++ oppBad :: [oppPos1]) []).1 =
      (processOpportunities 1000 fetchFailBad ([] ++ [oppPos1]) []).1 ∧
    collectPeriodicSignals fetchFailBad emptyNews ([] ++ "BAD" :: ["AAPL"]) =
      collectPeriodicSignals fetchFailBad emptyNews ([] ++ ["AAPL"]) := by
  have herr : createSignalFromOpportunity 1000 fetchFailBad oppBad =
      Except.error () := rfl
  have herrP : fetchFailBad "BAD" = Except.error () := rfl
  have h := C8_per_opportunity_error_isolation 1000 fetchFailBad [] [] [oppPos1] oppBad herr
    fetchFailBad emptyNews [] ["AAPL"] "BAD" herrP
  exact ⟨herr, herrP, h.1, h.2⟩

/-- C7: for every fusion run the emitted list is sorted by
confidence_score descending; ties are broken by recency of the triggering
event, most recent first (Python's stable sort keeps the
newest-first article order of `fetch_all_news` on equal keys); and the
list never exceeds max_signals.  The periodic generator's output is
likewise confidence-sorted and capped. -/
theorem C7_sorted_tiebreak_capped (now : ℤ)
    (fetch : String → Except Unit (Option Analysis))
    (history : List SignalHistoryEntry) (articles : List Article)
    (max_signals : ℕ) (out : List DigestItem × List SignalHistoryEntry)
    (hsorted : articles.Pairwise (fun a b => b.published ≤ a.published))
    (hrun : generateSignalsNews now fetch history articles max_signals = Except.ok out)
    (fetchP : String → Except Unit (Option Analysis))
    (symNews : String → Except Unit (List NewsItem))
    (watchlist : List String) (maxP : ℕ) :
    out.1.Pairwise (fun x y => y.confidence_score ≤ x.confidence_score) ∧
    out.1.Pairwise (fun x y => y.confidence_score < x.confidence_score ∨
      (x.confidence_score = y.confidence_score ∧
        ∀ tx ty, x.trigger_published = some tx → y.trigger_published = some ty →
          ty ≤ tx)) ∧
    out.1.length ≤ max_signals ∧
    (generateSignalsPeriodic fetchP symNews watchlist maxP).Pairwise
      (fun x y => y.confidence_score ≤ x.confidence_score) ∧
    (generateSignalsPeriodic fetchP symNews watchlist maxP).length ≤ maxP := by
  have hper1 : (generateSignalsPeriodic fetchP symNews watchlist maxP).Pairwise
      (fun x y => y.confidence_score ≤ x.confidence_score) := by
    unfold generateSignalsPeriodic
    exact (pairwise_ge_sortDescBy _ _).sublist (List.take_sublist _ _)
  have hper2 : (generateSignalsPeriodic fetchP symNews watchlist maxP).length ≤ maxP := by
    unfold generateSignalsPeriodic
    exact List.length_take_le _ _
  unfold generateSignalsNews at hrun
  split at hrun
  · obtain rfl := Except.ok.inj hrun
    exact ⟨List.Pairwise.nil, List.Pairwise.nil, Nat.zero_le _, hper1, hper2⟩
  · dsimp only at hrun
    split at hrun
    · obtain rfl := Except.ok.inj hrun
      exact ⟨List.Pairwise.nil, List.Pairwise.nil, Nat.zero_le _, hper1, hper2⟩
    · split at hrun
      · exact absurd hrun (by simp)
      · rename_i opps heq
        split at hrun
        · obtain rfl := Except.ok.inj hrun
          exact ⟨List.Pairwise.nil, List.Pairwise.nil, Nat.zero_le _, hper1, hper2⟩
        · obtain rfl := Except.ok.inj hrun
          dsimp only
          have hsigf : (articles.filter fun a =>
              a.ml_confidence ≥ 6/10 ∧ |a.sentiment_score| ≥ 3/10).Pairwise
              (fun a b => b.published ≤ a.published) :=
            hsorted.sublist (List.filter_sublist _)
          have hopps : opps.Pairwise
              (fun o1 o2 => o2.article.published ≤ o1.article.published) :=
            collectOpportunities_pairwise history now _ opps heq hsigf
          have hsigsT : ((processOpportunities now fetch opps history).1).Pairwise
              (fun x y => ∀ tx ty, x.trigger_published = some tx →
                y.trigger_published = some ty → ty ≤ tx) := by
            rw [processOpportunities_signals]
            apply List.Pairwise.filterMap (signalOf now fetch) ?_ hopps
            intro o1 o2 hR b hb b2 hb2
            have h1 := createSignal_ok_some now fetch o1 b
              ((signalOf_eq_some now fetch o1 b).mp hb)
            have h2 := createSignal_ok_some now fetch o2 b2
              ((signalOf_eq_some now fetch o2 b2).mp hb2)
            intro tx ty htx hty
            rw [h1.1] at htx
            rw [h2.1] at hty
            obtain rfl := Option.some.inj htx
            obtain rfl := Option.some.inj hty
            exact hR
          refine ⟨?_, ?_, ?_, hper1, hper2⟩
          · exact (pairwise_ge_sortDescBy _ _).sublist (List.take_sublist _ _)
          · exact (pairwise_stable_sortDescBy _ _ _ hsigsT).sublist
              (List.take_sublist _ _)
          · exact List.length_take_le _ _

/-- C2 amended: the dedup gate is checked during opportunity collection
against the history as of the start of the run — every collected
opportunity is non-duplicate w.r.t. that history, every emitted signal
arises from a collected opportunity, and each emission records a
(symbol, direction) history row timestamped `now`; an unexpired row
(within 7 days) blocks the pair in any later check, and once every
matching row is older than 7 days the pair is allowed again.  (Within a
single run, the check is not re-done in the processing loop, so two
opportunities for the same pair can both emit — see the
counterexample.) -/
theorem C2_amended_dedup_gate (history : List SignalHistoryEntry) (now : ℤ)
    (articles : List Article) (opps : List Opportunity)
    (hcol : collectOpportunities history now articles = Except.ok opps) :
    (∀ o ∈ opps,
      isDuplicateSignal history now o.symbol o.sentiment_label = Except.ok false) ∧
    (∀ (fetch : String → Except Unit (Option Analysis))
        (h0 : List SignalHistoryEntry) (sig : DigestItem),
      sig ∈ (processOpportunities now fetch opps h0).1 →
      ∃ o ∈ opps, createSignalFromOpportunity now fetch o = Except.ok (some sig)) ∧
    (∀ (fetch : String → Except Unit (Option Analysis))
        (h0 : List SignalHistoryEntry) (o : Opportunity) (sig : DigestItem),
      o ∈ opps →
      createSignalFromOpportunity now fetch o = Except.ok (some sig) →
      recordSignalHistory now o sig ∈ (processOpportunities now fetch opps h0).2 ∧
      recordSignalHistory now o sig =
        { symbol := o.symbol, signal_type := o.sentiment_label, created_at := now,
          expires_at := now + 7 * 86400,
          confidence_score := sig.confidence_score }) ∧
    (∀ (h2 : List SignalHistoryEntry) (now2 : ℤ) (s d : String),
      (∃ e ∈ h2, e.symbol = s ∧ e.signal_type = d ∧
        now2 - 7 * 86400 ≤ e.created_at) →
      isDuplicateSignal h2 now2 s d ≠ Except.ok false) ∧
    (∀ (h2 : List SignalHistoryEntry) (now2 : ℤ) (s d : String),
      (∀ e ∈ h2, e.symbol = s → e.signal_type = d →
        e.created_at < now2 - 7 * 86400) →
      isDuplicateSignal h2 now2 s d = Except.ok false) := by
  refine ⟨?_, ?_, ?_, isDuplicate_blocks, isDuplicate_expired⟩
  · intro o ho
    exact (collectOpportunities_mem history now articles opps hcol o ho).2
  · intro fetch h0 sig hs
    rw [processOpportunities_signals] at hs
    obtain ⟨o, ho, hfo⟩ := List.mem_filterMap.mp hs
    exact ⟨o, ho, (signalOf_eq_some now fetch o sig).mp hfo⟩
  · intro fetch h0 o sig ho hsig
    exact ⟨processOpportunities_records now fetch opps h0 o sig ho hsig, rfl⟩

/-- C2 counterexample: one `generate_signals` run over two breaking
articles about the same symbol with the same (positive) direction emits
TWO signals — the duplicate check ran during opportunity collection,
before either signal was recorded — contradicting "at most one signal
is emitted … including two opportunities processed within a single
generate_signals run". -/
theorem C2_counterexample :
    generateSignalsNews 1000 fetchBare [] [artPos1, artPos2] 10 =
      Except.ok ([sigPos1, sigPos2], [histPos, histPos]) ∧
    sigPos1.symbol = some "AAPL" ∧ sigPos2.symbol = some "AAPL" ∧
    histPos.symbol = "AAPL" ∧ histPos.signal_type = "positive" ∧
    ([sigPos1, sigPos2] : List DigestItem).length = 2 :=
  ⟨news_run_eval, rfl, rfl, rfl, rfl, rfl⟩

/-- Witness for C2 (amended): the collected AAPL opportunities passed the
gate against the empty pre-run history; the emitted signal arises from
them; the recorded row blocks the pair at t=2000 (inside the window) and
no longer blocks at t=700000 (window elapsed). -/
theorem C2_witness :
    isDuplicateSignal [] 1000 "AAPL" "positive" = Except.ok false ∧
    (∃ o ∈ [oppPos1, oppPos2],
      createSignalFromOpportunity 1000 fetchBare o = Except.ok (some sigPos1)) ∧
    isDuplicateSignal [histPos] 2000 "AAPL" "positive" ≠ Except.ok false ∧
    isDuplicateSignal [histPos] 700000 "AAPL" "positive" = Except.ok false := by
  have h := C2_amended_dedup_gate [] 1000 [artPos1, artPos2] [oppPos1, oppPos2] collect_aapl
  refine ⟨h.1 oppPos1 (List.mem_cons_self _ _), ?_, ?_, ?_⟩
  · apply h.2.1 fetchBare [] sigPos1
    rw [show (processOpportunities 1000 fetchBare [oppPos1, oppPos2] []).1 =
      [sigPos1, sigPos2] from by rw [process_aapl]]
    exact List.mem_cons_self _ _
  · exact h.2.2.2.1 [histPos] 2000 "AAPL" "positive"
      ⟨histPos, List.mem_cons_self _ _, rfl, rfl, by norm_num [histPos]⟩
  · exact h.2.2.2.2 [histPos] 700000 "AAPL" "positive"
      (by
        intro e he h1 h2
        rw [List.mem_singleton] at he
        subst he
        norm_num [histPos])

/- ----------------------------------------------------------------------
Claim C9
---------------------------------------------------------------------- -/

/-- Evaluation of `_analyze_symbol` on an oversold-RSI analysis with an
empty symbol-news lookup: a signal is still produced, its combined score
0.6·0.3 + 0.4·0.0 = 0.18 built from a zero news score. -/
theorem analyze_rsi25_eval :
    analyzeSymbol fetchRsi25 emptyNews "AAPL" = some sigC9 := by
  norm_num [analyzeSymbol, fetchRsi25, emptyNews, analysisRsi25, sigC9,
    calcTechScorePeriodic, calcNewsScore, clamp1, determinePriorityPeriodic,
    determineCategoryPeriodic, determineCategory, roundTo, rhe, abs_of_nonneg,
    Int.fract]

/-- C9 counterexample: a symbol whose news lookup returns nothing enters
the combined-score computation as news score 0.0 — `_calculate_news_score`
returns 0.0 for an empty article list, and `_analyze_symbol` still emits a
signal with combined = 0.6·tech + 0.4·0 — rather than propagating the
absence as an explicit no-data result. -/
theorem C9_counterexample :
    calcNewsScore [] = 0 ∧
    analyzeSymbol fetchRsi25 emptyNews "AAPL" = some sigC9 ∧
    sigC9.sentiment_score = roundTo 2 (calcTechScorePeriodic (some 25) none none
      none * (6/10) + 0 * (4/10)) ∧
    sigC9.sentiment_score = 9/50 := by
  refine ⟨rfl, analyze_rsi25_eval, ?_, rfl⟩
  norm_num [sigC9, calcTechScorePeriodic, clamp1, roundTo, rhe, Int.fract]

/-- C9 amended: market-data absence does propagate as an explicit no-data
result (`None` analysis, or a raising fetch, yields no signal), but an
empty or unscored news lookup in the periodic generator enters fusion as
news score 0.0: an emitted signal's score is then 0.6·technical + 0.4·0. -/
theorem C9_amended_absence_handling (fetch : String → Except Unit (Option Analysis))
    (symNews : String → Except Unit (List NewsItem)) (s : String) :
    (fetch s = Except.ok none → analyzeSymbol fetch symNews s = none) ∧
    (fetch s = Except.error () → analyzeSymbol fetch symNews s = none) ∧
    calcNewsScore [] = 0 ∧
    (∀ arts : List NewsItem, (∀ a ∈ arts, a.sentiment_score = none) →
      calcNewsScore arts = 0) ∧
    (∀ (analysis : Analysis) (sig : DigestItem),
      fetch s = Except.ok (some analysis) → symNews s = Except.ok [] →
      analyzeSymbol fetch symNews s = some sig →
      sig.sentiment_score = roundTo 2 (calcTechScorePeriodic analysis.rsi
        analysis.macd analysis.moving_averages analysis.volume * (6/10) +
        0 * (4/10))) := by
  refine ⟨?_, ?_, rfl, ?_, ?_⟩
  · intro hf
    unfold analyzeSymbol
    rw [hf]
  · intro hf
    unfold analyzeSymbol
    rw [hf]
  · intro arts hnone
    unfold calcNewsScore
    by_cases he : arts.isEmpty
    · rw [if_pos he]
    · rw [if_neg he]
      have hfm : arts.filterMap (fun a => a.sentiment_score) = [] :=
        List.filterMap_eq_nil.mpr hnone
      dsimp only
      rw [hfm]
      rfl
  · intro analysis sig hf hn hsig
    unfold analyzeSymbol at hsig
    rw [hf, hn] at hsig
    dsimp only at hsig
    have hz : calcNewsScore [] = 0 := rfl
    rw [hz] at hsig
    by_cases hg : |calcTechScorePeriodic analysis.rsi analysis.macd
        analysis.moving_averages analysis.volume * (6/10) + 0 * (4/10)| < 15/100
    · rw [if_pos hg] at hsig
      exact absurd hsig (by simp)
    · rw [if_neg hg] at hsig
      obtain rfl := Option.some.inj hsig
      rfl

/-- Witness for C9 (amended): a no-data fetch yields no signal; the
oversold-RSI run with empty news carries the zero news score. -/
theorem C9_witness :
    analyzeSymbol fetchNone emptyNews "AAPL" = none ∧
    sigC9.sentiment_score = roundTo 2 (calcTechScorePeriodic
      analysisRsi25.rsi analysisRsi25.macd analysisRsi25.moving_averages
      analysisRsi25.volume * (6/10) + 0 * (4/10)) := by
  refine ⟨(C9_amended_absence_handling fetchNone emptyNews "AAPL").1 rfl, ?_⟩
  exact (C9_amended_absence_handling fetchRsi25 emptyNews "AAPL").2.2.2.2
    analysisRsi25 sigC9 rfl rfl analyze_rsi25_eval

/-- Witness for C7 at the concrete two-article run (articles newest-first,
both signals at equal confidence, output in article order and within the
cap). -/
theorem C7_witness :
    ([artPos1, artPos2] : List Article).Pairwise
      (fun a b => b.published ≤ a.published) ∧
    ([sigPos1, sigPos2] : List DigestItem).Pairwise
      (fun x y => y.confidence_score ≤ x.confidence_score) ∧
    ([sigPos1, sigPos2] : List DigestItem).length ≤ 10 := by
  have hp : ([artPos1, artPos2] : List Article).Pairwise
      (fun a b => b.published ≤ a.published) := by
    norm_num [artPos1, artPos2]
  have h := C7_sorted_tiebreak_capped 1000 fetchBare [] [artPos1, artPos2] 10
    ([sigPos1, sigPos2], [histPos, histPos]) hp news_run_eval
    fetchBare emptyNews [] 0
  exact ⟨hp, h.1, h.2.2.1⟩

/- ----------------------------------------------------------------------
Claim C10
---------------------------------------------------------------------- -/

theorem toUpperAZ_of_upper (c : Char) (h : isUpperAZ c = true) : toUpperAZ c = c := by
  unfold toUpperAZ
  rw [if_neg]
  intro hl
  unfold isUpperAZ at h
  unfold isLowerAZ at hl
  rw [decide_eq_true_eq] at h hl
  have : ('a' : Char) ≤ 'Z' := le_trans hl.1 h.2
  exact absurd this (by decide)

theorem isUpperAZ_of_not_word (c : Char) (h : isWordChar c = false) :
    isUpperAZ c = false := by
  unfold isWordChar at h
  rcases Bool.or_eq_false_iff.mp h with ⟨h1, _⟩
  rcases Bool.or_eq_false_iff.mp h1 with ⟨h2, _⟩
  rcases Bool.or_eq_false_iff.mp h2 with ⟨h3, _⟩
  exact h3

theorem getD_append_self (pre : List Char) (c : Char) (rest : List Char) :
    (pre ++ c :: rest).getD pre.length ' ' = c := by
  induction pre with
  | nil => rfl
  | cons p ps ih => simpa using ih

theorem drop_append_succ (pre : List Char) (c : Char) (rest : List Char) :
    (pre ++ c :: rest).drop (pre.length + 1) = rest := by
  induction pre with
  | nil => rfl
  | cons p ps ih => simpa using ih

theorem takeWhile_append_head (p : Char → Bool) (W : List Char) (r0 : Char)
    (rs : List Char) (hW : ∀ c ∈ W, p c = true) (hr : p r0 = false) :
    (W ++ r0 :: rs).takeWhile p = W := by
  induction W with
  | nil => simp [List.takeWhile, hr]
  | cons w ws ih =>
    have hw : p w = true := hW w (List.mem_cons_self w ws)
    rw [List.cons_append, List.takeWhile_cons, hw]
    simp only [if_true]
    rw [ih (fun c hc => hW c (List.mem_cons_of_mem w hc))]

theorem containsSub_intro (l1 mid l2 : List Char) :
    containsSub (l1 ++ mid ++ l2) mid = true := by
  unfold containsSub
  rw [List.any_eq_true]
  refine ⟨l1.length, List.mem_range.mpr ?_, ?_⟩
  · simp
    omega
  · rw [List.append_assoc, List.drop_left]
    exact List.isPrefixOf_iff_prefix.mpr (List.prefix_append mid l2)

/-- The dollar-prefix pattern matches at the `$` of a well-formed token:
`pre ++ '$' :: W ++ r0 :: rs` with `W` 1–5 uppercase letters and a
non-word character after. -/
theorem dollarTickerAt_token (pre W : List Char) (r0 : Char) (rs : List Char)
    (hup : ∀ c ∈ W, isUpperAZ c = true)
    (hlen1 : 1 ≤ W.length) (hlen5 : W.length ≤ 5)
    (hr0 : isWordChar r0 = false) :
    dollarTickerAt (pre ++ '$' :: (W ++ r0 :: rs)) pre.length = some W := by
  unfold dollarTickerAt
  dsimp only
  have hget : (pre ++ '$' :: (W ++ r0 :: rs)).getD pre.length ' ' = '$' :=
    getD_append_self pre '$' (W ++ r0 :: rs)
  have hlt : pre.length < (pre ++ '$' :: (W ++ r0 :: rs)).length := by
    simp
  rw [if_pos ⟨hget, hlt⟩]
  have hdrop : (pre ++ '$' :: (W ++ r0 :: rs)).drop (pre.length + 1) =
      W ++ r0 :: rs := drop_append_succ pre '$' (W ++ r0 :: rs)
  rw [hdrop]
  have hrun : (W ++ r0 :: rs).takeWhile isUpperAZ = W :=
    takeWhile_append_head isUpperAZ W r0 rs hup (isUpperAZ_of_not_word r0 hr0)
  rw [hrun]
  rw [List.drop_left]
  have hcond : 1 ≤ W.length ∧ W.length ≤ 5 ∧
      ((r0 :: rs : List Char).isEmpty = true ∨
        ¬ isWordChar ((r0 :: rs : List Char).getD 0 ' ') = true) := by
    refine ⟨hlen1, hlen5, Or.inr ?_⟩
    simp only [List.getD]
    simp [hr0]
  rw [if_pos hcond]

/-- Hence the token's body is among the dollar tickers of the text. -/
theorem mem_dollarTickers (pre W : List Char) (r0 : Char) (rs : List Char)
    (hup : ∀ c ∈ W, isUpperAZ c = true)
    (hlen1 : 1 ≤ W.length) (hlen5 : W.length ≤ 5)
    (hr0 : isWordChar r0 = false) :
    W ∈ dollarTickers (pre ++ '$' :: (W ++ r0 :: rs)) := by
  unfold dollarTickers
  apply List.mem_filterMap.mpr
  refine ⟨pre.length, List.mem_range.mpr ?_, dollarTickerAt_token pre W r0 rs
    hup hlen1 hlen5 hr0⟩
  simp

/-- And therefore among the extracted ticker strings. -/
theorem mem_extractTickersFromText (pre W : List Char) (r0 : Char) (rs : List Char)
    (hup : ∀ c ∈ W, isUpperAZ c = true)
    (hlen1 : 1 ≤ W.length) (hlen5 : W.length ≤ 5)
    (hr0 : isWordChar r0 = false) :
    String.mk W ∈ extractTickersFromText (pre ++ '$' :: (W ++ r0 :: rs)) := by
  unfold extractTickersFromText
  apply List.mem_dedup.mpr
  apply List.mem_map.mpr
  exact ⟨W, List.mem_append_left _ (List.mem_append_left _
    (mem_dollarTickers pre W r0 rs hup hlen1 hlen5 hr0)), rfl⟩

theorem tickerStep_mono (tU xU : List Char) (mc : ℚ)
    (acc : List SymbolCandidate) (s : String) (x : SymbolCandidate)
    (hx : x ∈ acc) : x ∈ tickerStep tU xU mc acc s := by
  unfold tickerStep
  dsimp only
  split_ifs <;> first | exact hx | exact List.mem_append_left _ hx

theorem foldl_tickerStep_mono (tU xU : List Char) (mc : ℚ)
    (syms : List String) (acc : List SymbolCandidate) (x : SymbolCandidate)
    (hx : x ∈ acc) : x ∈ syms.foldl (tickerStep tU xU mc) acc := by
  induction syms generalizing acc with
  | nil => exact hx
  | cons s rest ih => exact ih _ (tickerStep_mono tU xU mc acc s x hx)

theorem mem_foldl_tickerStep (tU xU : List Char) (mc : ℚ)
    (syms : List String) (acc : List SymbolCandidate) (W : String)
    (hW : W ∈ syms) (htitle : containsSub tU W.toList = true)
    (hmc : mc ≤ 95/100) :
    (⟨W, 95/100, "ticker_pattern"⟩ : SymbolCandidate) ∈
      syms.foldl (tickerStep tU xU mc) acc := by
  induction syms generalizing acc with
  | nil => exact absurd hW (List.not_mem_nil W)
  | cons s rest ih =>
    rcases List.mem_cons.mp hW with rfl | hW2
    · rw [List.foldl_cons]
      apply foldl_tickerStep_mono
      unfold tickerStep
      dsimp only
      rw [if_pos htitle, if_pos (by exact hmc)]
      exact List.mem_append_right _ (List.mem_singleton.mpr rfl)
    · rw [List.foldl_cons]
      exact ih _ hW2

theorem companyStep_mono (tL xL : List Char) (mc : ℚ)
    (acc : List SymbolCandidate) (s : String) (x : SymbolCandidate)
    (hx : x ∈ acc) : x ∈ companyStep tL xL mc acc s := by
  unfold companyStep
  dsimp only
  split_ifs <;> first | exact hx | exact List.mem_append_left _ hx

theorem foldl_companyStep_mono (tL xL : List Char) (mc : ℚ)
    (syms : List String) (acc : List SymbolCandidate) (x : SymbolCandidate)
    (hx : x ∈ acc) : x ∈ syms.foldl (companyStep tL xL mc) acc := by
  induction syms generalizing acc with
  | nil => exact hx
  | cons s rest ih => exact ih _ (companyStep_mono tL xL mc acc s x hx)

theorem map_toUpperAZ_of_upper (l : List Char) (h : ∀ c ∈ l, isUpperAZ c = true) :
    l.map toUpperAZ = l := by
  induction l with
  | nil => rfl
  | cons c cs ih =>
    rw [List.map_cons, toUpperAZ_of_upper c (h c (List.mem_cons_self c cs)),
      ih (fun x hx => h x (List.mem_cons_of_mem c hx))]

/-- C10 amended: the stopword list is applied to the context-keyword and
parenthetical methods but not to the dollar-prefix method, so every
EXCLUDED_WORDS entry that is a well-formed dollar token — 1 to 5 uppercase
letters (which excludes "Q1".."Q4" and the 6-letter "EBITDA") — appearing
as `$W` in the title is returned by extract_symbols with confidence
0.95. -/
theorem C10_amended_dollar_bypass (W : String) (pre post : List Char)
    (title summary : String) (min_confidence : ℚ)
    (hW : W ∈ EXCLUDED_WORDS)
    (hup : ∀ c ∈ W.toList, isUpperAZ c = true)
    (hlen1 : 1 ≤ W.toList.length) (hlen5 : W.toList.length ≤ 5)
    (htitle : title.data = pre ++ '$' :: (W.toList ++ post))
    (hpost : post = [] ∨ ∃ p0 ps, post = p0 :: ps ∧ isWordChar p0 = false)
    (hmc : min_confidence ≤ 95/100) :
    (⟨W, 95/100, "ticker_pattern"⟩ : SymbolCandidate) ∈
      extractSymbols title summary min_confidence := by
  have htext : (title ++ " " ++ summary).toList =
      pre ++ '$' :: (W.toList ++ (post ++ ' ' :: summary.data)) := by
    show ((title ++ " ") ++ summary).data = _
    rw [String.data_append, String.data_append, htitle]
    show (pre ++ '$' :: (W.toList ++ post)) ++ [' '] ++ summary.data = _
    simp [List.append_assoc]
  have hmem : W ∈ extractTickersFromText ((title ++ " " ++ summary).toList) := by
    rw [htext]
    rcases hpost with rfl | ⟨p0, ps, rfl, hp0⟩
    · have := mem_extractTickersFromText pre W.toList ' ' summary.data hup
        hlen1 hlen5 (by decide)
      simpa using this
    · have := mem_extractTickersFromText pre W.toList p0 (ps ++ ' ' :: summary.data)
        hup hlen1 hlen5 hp0
      simp only [List.nil_append, List.cons_append, List.append_assoc] at this ⊢
      simpa using this
  have hcs : containsSub (title.toList.map toUpperAZ) W.toList = true := by
    have : title.toList.map toUpperAZ =
        (pre.map toUpperAZ ++ ['$']) ++ W.toList ++ post.map toUpperAZ := by
      show title.data.map toUpperAZ = _
      rw [htitle]
      rw [List.map_append, List.map_cons, List.map_append,
        map_toUpperAZ_of_upper W.toList hup]
      simp [List.append_assoc]
      decide
    rw [this]
    exact containsSub_intro _ _ _
  unfold extractSymbols
  dsimp only
  apply (mem_sortDescBy _ _ _).mpr
  apply foldl_companyStep_mono
  exact mem_foldl_tickerStep _ _ _ _ _ W hmem hcs hmc

/-- C10 counterexample: "Q1" is in EXCLUDED_WORDS, yet a title consisting
of the token `$Q1` extracts nothing at all — the regex `\$([A-Z]{1,5})\b`
cannot match a token containing a digit — so the claim quantified over
every word of EXCLUDED_WORDS is false. -/
theorem C10_counterexample :
    ("Q1" : String) ∈ EXCLUDED_WORDS ∧
    extractSymbols "$Q1" "" (6/10) = [] := by
  constructor
  · decide
  · have ht1 : extractTickersFromText ['$', 'Q', '1', ' '] = [] := by decide
    have ht2 : extractCompaniesFromText ['$', 'Q', '1', ' '] = [] := by decide
    norm_num +decide [extractSymbols, tickerStep, companyStep, ht1, ht2,
      sortDescBy, insertDescBy]

/-- Witness for C10 (amended) at W = "THE" in title "$THE". -/
theorem C10_witness :
    ("THE" : String) ∈ EXCLUDED_WORDS ∧
    (⟨"THE", 95/100, "ticker_pattern"⟩ : SymbolCandidate) ∈
      extractSymbols "$THE" "" (6/10) := by
  refine ⟨by decide, ?_⟩
  exact C10_amended_dollar_bypass "THE" [] [] "$THE" "" (6/10)
    (by decide) (by decide) (by decide) (by decide) (by decide)
    (Or.inl rfl) (by norm_num)
